import Mathlib

/-!
A verification development for the klippy log analyzer
(`klippy_log_analyzer.py`).  The parsing/extraction engine
(`LogParser.parse_klippy_log` and `LogParser.extract_all_metrics`) is
shallowly embedded: each Python regular expression is transliterated into a
token list over a small, executable matching engine whose backtracking
semantics (leftmost search, greedy `\d+`, non-greedy `.*?`, newline-free
`.`) reproduces `re.search` on the pattern shapes used by the source.
Numbers are modelled as exact rationals (`ℚ`); Python `float()` / `int()`
on captured strings become fallible parsers returning `Option ℚ`, and the
exception channel of the Python code becomes `Except String`.
-/

/-- Characters stripped by Python `str.strip()` (ASCII whitespace). -/
def pyWs : List Char := [' ', '\t', '\n', '\r', '\x0b', '\x0c']

/-- A line is skipped when `not line.strip()`: all characters whitespace. -/
def isBlank (l : String) : Bool := l.data.all (fun c => pyWs.contains c)

/-- `stripPre pat cs` strips the literal `pat` from the front of `cs`
(`none` when `cs` does not start with `pat`). -/
def stripPre : List Char → List Char → Option (List Char)
  | [], cs => some cs
  | _ :: _, [] => none
  | l :: ls, c :: cs => if l = c then stripPre ls cs else none

/-- Maximal nonempty digit run at the front of the input, with the rest:
the deterministic reading of a greedy `\d+` (the source's patterns always
follow a digit run by a non-digit requirement, so the maximal run is the
only viable choice for `re`'s backtracking). -/
def scanDigits : List Char → Option (List Char × List Char)
  | [] => none
  | c :: cs =>
    if c.isDigit then
      match scanDigits cs with
      | some (d, r) => some (c :: d, r)
      | none => some ([c], cs)
    else none

/-- `\d+\.\d+` at the front of the input: capture and rest. -/
def scanFloat (cs : List Char) : Option (List Char × List Char) :=
  match scanDigits cs with
  | some (a, '.' :: r) =>
    match scanDigits r with
    | some (b, r') => some (a ++ '.' :: b, r')
    | none => none
  | _ => none

/-- `\d+(?:\.\d+)?` at the front of the input: capture and rest. -/
def scanNum (cs : List Char) : Option (List Char × List Char) :=
  match scanDigits cs with
  | some (a, '.' :: r) =>
    match scanDigits r with
    | some (b, r') => some (a ++ '.' :: b, r')
    | none => some (a, '.' :: r)
  | some (a, r) => some (a, r)
  | none => none

/-- One token of a transliterated pattern: a literal, a capturing
`(\d+\.\d+)`, a capturing `(\d+)`, a capturing `(\d+(?:\.\d+)?)`, or a
non-greedy uncaptured gap `.*?`. -/
inductive Tok where
  | lit : List Char → Tok
  | capF : Tok
  | capI : Tok
  | capN : Tok
  | gap : Tok
deriving Repr

/-- Non-greedy `.*?` driver: `f` matches the remaining tokens; try it
after consuming the fewest possible characters, never consuming a newline
(`.` in `re` does not match `'\n'`). -/
def gapRun (f : List Char → Option (List (List Char))) :
    List Char → Option (List (List Char))
  | [] => f []
  | c :: cs =>
    match f (c :: cs) with
    | some caps => some caps
    | none => if c = '\n' then none else gapRun f cs

/-- Match a token list at the start of the input, returning the captures.
Mirrors `re` semantics on the source's patterns: literals must match
exactly, captures take the (deterministic) greedy number at the front, and
a gap tries the shortest extension first (`gapRun`). -/
def matchToks : List Tok → List Char → Option (List (List Char))
  | [], _ => some []
  | Tok.lit l :: ts, cs =>
    match stripPre l cs with
    | some r => matchToks ts r
    | none => none
  | Tok.capF :: ts, cs =>
    match scanFloat cs with
    | some (cap, r) =>
      match matchToks ts r with
      | some caps => some (cap :: caps)
      | none => none
    | none => none
  | Tok.capI :: ts, cs =>
    match scanDigits cs with
    | some (cap, r) =>
      match matchToks ts r with
      | some caps => some (cap :: caps)
      | none => none
    | none => none
  | Tok.capN :: ts, cs =>
    match scanNum cs with
    | some (cap, r) =>
      match matchToks ts r with
      | some caps => some (cap :: caps)
      | none => none
    | none => none
  | Tok.gap :: ts, cs => gapRun (fun r => matchToks ts r) cs

/-- `re.search`: try the pattern at every start position, left to right. -/
def reSearch (ts : List Tok) : List Char → Option (List (List Char))
  | [] => matchToks ts []
  | c :: cs =>
    match matchToks ts (c :: cs) with
    | some caps => some caps
    | none => reSearch ts cs

/-- Numeric value of a digit string (most significant first). -/
def digitsToNat (ds : List Char) : ℕ :=
  ds.foldl (fun n c => 10 * n + (c.toNat - 48)) 0

/-- Python `float()` as used on the captured groups: the patterns only ever
capture `\d+` or `\d+\.\d+`, on which `float()` yields the exact decimal
value; on anything else this parser fails (as `float()` raises). -/
def parseFloatChars (s : List Char) : Option ℚ :=
  match scanDigits s with
  | some (a, []) => some (digitsToNat a)
  | some (a, '.' :: r) =>
    match scanDigits r with
    | some (b, []) => some ((digitsToNat a : ℚ) + (digitsToNat b : ℚ) / 10 ^ b.length)
    | _ => none
  | _ => none

/-- Python `int()` on a captured group: succeeds exactly on digit strings. -/
def parseIntChars (s : List Char) : Option ℚ :=
  match scanDigits s with
  | some (a, []) => some (digitsToNat a)
  | _ => none

/-- A failed `float()` raises `ValueError`, which propagates out of the
parse; in the embedding the exception channel is `Except String`. -/
def ofOptF (o : Option ℚ) : Except String ℚ :=
  match o with
  | some q => Except.ok q
  | none => Except.error "could not convert string to float"

/-- A failed `int()` raises `ValueError` (same channel). -/
def ofOptI (o : Option ℚ) : Except String ℚ :=
  match o with
  | some q => Except.ok q
  | none => Except.error "invalid literal for int"

/-- One extraction block of `extract_all_metrics`: the keys it appends to,
the pattern it searches for, and the conversion of the captured groups to
the appended values (in the same order as `keys`).  On no match every key
receives the sentinel `0.0`. -/
structure MetricFamily where
  keys : List String
  toks : List Tok
  vals : List (List Char) → Except String (List ℚ)

/-- Pattern `Stats (\d+\.\d+):` used to classify record lines. -/
def tsToks : List Tok := [Tok.lit "Stats ".data, Tok.capF, Tok.lit ":".data]

/-- The MCU pattern of `extract_all_metrics` (line 94 of the source). -/
def mcuToks : List Tok :=
  [Tok.lit "mcu: mcu_awake=".data, Tok.capF,
   Tok.lit " mcu_task_avg=".data, Tok.capF,
   Tok.lit " mcu_task_stddev=".data, Tok.capF,
   Tok.lit " bytes_write=".data, Tok.capI,
   Tok.lit " bytes_read=".data, Tok.capI,
   Tok.lit " bytes_retransmit=".data, Tok.capI,
   Tok.gap, Tok.lit "send_seq=".data, Tok.capI,
   Tok.lit " receive_seq=".data, Tok.capI,
   Tok.gap, Tok.lit "srtt=".data, Tok.capF,
   Tok.lit " rttvar=".data, Tok.capF,
   Tok.lit " rto=".data, Tok.capF]

/-- The MCU family: groups 1,2,4,5,6,7,8,9,10,11 feed the eleven
mcu-related series with the source's scale transforms. -/
def mcuFamilyW (fp fi : List Char → Option ℚ) : MetricFamily where
  keys := ["mcu_load", "bandwidth", "awake_time", "mcu_bytes_write",
           "mcu_bytes_read", "mcu_bytes_retransmit", "mcu_send_seq",
           "mcu_receive_seq", "mcu_srtt", "mcu_rttvar", "mcu_rto"]
  toks := mcuToks
  vals := fun caps =>
    match caps with
    | [a, t, _, w, r, rt, ss, rs, sr, rv, ro] => do
      let awake ← ofOptF (fp a)
      let task_avg ← ofOptF (fp t)
      let bytes_write ← ofOptI (fi w)
      let bytes_read ← ofOptI (fi r)
      let bytes_retransmit ← ofOptI (fi rt)
      let send_seq ← ofOptI (fi ss)
      let receive_seq ← ofOptI (fi rs)
      let srtt ← ofOptF (fp sr)
      let rttvar ← ofOptF (fp rv)
      let rto ← ofOptF (fp ro)
      pure [task_avg * 100000, (bytes_write + bytes_read) / 1024, awake * 100,
            bytes_write, bytes_read, bytes_retransmit, send_seq, receive_seq,
            srtt * 1000, rttvar * 1000, rto * 1000]
    | _ => Except.error "no such group"

/-- The toolhead pattern template (line 129 of the source), instantiated
for `toolhead0` and `toolhead1`. -/
def toolheadToks (n : ℕ) : List Tok :=
  [Tok.lit ("toolhead" ++ toString n ++ ": mcu_awake=").data, Tok.capF,
   Tok.lit " mcu_task_avg=".data, Tok.capF,
   Tok.gap, Tok.lit "bytes_write=".data, Tok.capI,
   Tok.lit " bytes_read=".data, Tok.capI,
   Tok.gap, Tok.lit "freq=".data, Tok.capI]

/-- Instance-templated toolhead family (`toolhead0` / `toolhead1`). -/
def toolheadFamilyW (fp fi : List Char → Option ℚ) (n : ℕ) : MetricFamily where
  keys := ["toolhead" ++ toString n ++ "_load",
           "toolhead" ++ toString n ++ "_bandwidth",
           "toolhead" ++ toString n ++ "_awake",
           "toolhead" ++ toString n ++ "_bytes_write",
           "toolhead" ++ toString n ++ "_bytes_read",
           "toolhead" ++ toString n ++ "_freq"]
  toks := toolheadToks n
  vals := fun caps =>
    match caps with
    | [a, t, w, r, fq] => do
      let awake ← ofOptF (fp a)
      let task_avg ← ofOptF (fp t)
      let bytes_write ← ofOptI (fi w)
      let bytes_read ← ofOptI (fi r)
      let freq ← ofOptI (fi fq)
      pure [task_avg * 100000, (bytes_write + bytes_read) / 1024, awake * 100,
            bytes_write, bytes_read, freq / 1000000]
    | _ => Except.error "no such group"

/-- The heater_bed pattern (line 152 of the source). -/
def heaterBedToks : List Tok :=
  [Tok.lit "heater_bed: target=".data, Tok.capN,
   Tok.lit " temp=".data, Tok.capF, Tok.lit " pwm=".data, Tok.capF]

/-- Heater-bed family: target, temp identity; pwm scaled to percent. -/
def heaterBedFamilyW (fp : List Char → Option ℚ) : MetricFamily where
  keys := ["heater_bed_target", "heater_bed_temp", "heater_bed_pwm"]
  toks := heaterBedToks
  vals := fun caps =>
    match caps with
    | [t, te, p] => do
      let target ← ofOptF (fp t)
      let temp ← ofOptF (fp te)
      let pwm ← ofOptF (fp p)
      pure [target, temp, pwm * 100]
    | _ => Except.error "no such group"

/-- The extruder pattern template (line 164), for `extruder`/`extruder1`. -/
def extruderToks (name : String) : List Tok :=
  [Tok.lit (name ++ ": target=").data, Tok.capN,
   Tok.lit " temp=".data, Tok.capF, Tok.lit " pwm=".data, Tok.capF]

/-- Extruder family (`extruder`, `extruder1`), same shape as heater_bed. -/
def extruderFamilyW (fp : List Char → Option ℚ) (name : String) : MetricFamily where
  keys := [name ++ "_target", name ++ "_temp", name ++ "_pwm"]
  toks := extruderToks name
  vals := fun caps =>
    match caps with
    | [t, te, p] => do
      let target ← ofOptF (fp t)
      let temp ← ofOptF (fp te)
      let pwm ← ofOptF (fp p)
      pure [target, temp, pwm * 100]
    | _ => Except.error "no such group"

/-- A single-pattern, single-key family (the system-metrics dict and the
buffer_time block): the captured group is converted with `float()` and
scaled by `t`. -/
def scalarFamilyW (fp : List Char → Option ℚ) (key : String) (toks : List Tok)
    (t : ℚ → ℚ) : MetricFamily where
  keys := [key]
  toks := toks
  vals := fun caps =>
    match caps with
    | [c] => do
      let v ← ofOptF (fp c)
      pure [t v]
    | _ => Except.error "no such group"

/-- All extraction blocks of `extract_all_metrics`, in source order. -/
def metricFamiliesW (fp fi : List Char → Option ℚ) : List MetricFamily :=
  [mcuFamilyW fp fi,
   toolheadFamilyW fp fi 0,
   toolheadFamilyW fp fi 1,
   heaterBedFamilyW fp,
   extruderFamilyW fp "extruder",
   extruderFamilyW fp "extruder1",
   scalarFamilyW fp "sysload" [Tok.lit "sysload=".data, Tok.capF] (fun v => v),
   scalarFamilyW fp "cputime" [Tok.lit "cputime=".data, Tok.capF] (fun v => v),
   scalarFamilyW fp "memavail" [Tok.lit "memavail=".data, Tok.capI] (fun v => v / 1024),
   scalarFamilyW fp "print_time" [Tok.lit "print_time=".data, Tok.capF] (fun v => v),
   scalarFamilyW fp "print_stall" [Tok.lit "print_stall=".data, Tok.capI] (fun v => v),
   scalarFamilyW fp "host_buffer" [Tok.lit "buffer_time=".data, Tok.capF] (fun v => v)]

/-- The registry with the real `float()` / `int()` parsers. -/
def metricFamilies : List MetricFamily := metricFamiliesW parseFloatChars parseIntChars

/-- `all_metrics` of `parse_klippy_log` (lines 37-49), in source order. -/
def all_metrics : List String :=
  ["mcu_load", "bandwidth", "host_buffer", "awake_time",
   "mcu_bytes_write", "mcu_bytes_read", "mcu_bytes_retransmit",
   "mcu_send_seq", "mcu_receive_seq", "mcu_srtt", "mcu_rttvar", "mcu_rto",
   "toolhead0_load", "toolhead0_bandwidth", "toolhead0_awake",
   "toolhead0_bytes_write", "toolhead0_bytes_read", "toolhead0_freq",
   "toolhead1_load", "toolhead1_bandwidth", "toolhead1_awake",
   "toolhead1_bytes_write", "toolhead1_bytes_read", "toolhead1_freq",
   "heater_bed_target", "heater_bed_temp", "heater_bed_pwm",
   "extruder_target", "extruder_temp", "extruder_pwm",
   "extruder1_target", "extruder1_temp", "extruder1_pwm",
   "sysload", "cputime", "memavail", "print_time", "print_stall"]

/-- Append one value per key: the matched branch of an extraction block
(`metrics_data[k].append(v)` for each key/value pair in order). -/
def appendKeys : List String → List ℚ → (String → List ℚ) → (String → List ℚ)
  | k :: ks, v :: vs, m => appendKeys ks vs (fun key => if key = k then m key ++ [v] else m key)
  | _, _, m => m

/-- Value associated to a key by the parallel key/value lists. -/
def keyVal : List String → List ℚ → String → Option ℚ
  | k :: ks, v :: vs, key => if key = k then some v else keyVal ks vs key
  | _, _, _ => none

/-- Run one extraction block on a line: on match convert the captures and
append them; on no match append the sentinel `0.0` to every key. -/
def runFamily (f : MetricFamily) (line : List Char) (m : String → List ℚ) :
    Except String (String → List ℚ) :=
  match reSearch f.toks line with
  | some caps => do
    let vs ← f.vals caps
    pure (appendKeys f.keys vs m)
  | none => pure (appendKeys f.keys (List.replicate f.keys.length 0) m)

/-- `LogParser.extract_all_metrics` (lines 90-199), generalized over the
numeric parsers used on captured groups. -/
def extract_all_metricsW (fp fi : List Char → Option ℚ) (line : List Char)
    (m : String → List ℚ) : Except String (String → List ℚ) :=
  (metricFamiliesW fp fi).foldlM (fun m f => runFamily f line m) m

/-- `LogParser.extract_all_metrics` with the real parsers. -/
def extract_all_metrics (line : List Char) (m : String → List ℚ) :
    Except String (String → List ℚ) :=
  extract_all_metricsW parseFloatChars parseIntChars line m

/-- The mutable parse state of `parse_klippy_log`: the `timestamps` list
and the `metrics_data` dict (total over keys; only registered keys are
ever touched, and absent keys read as `[]`). -/
structure St where
  ts : List ℚ
  m : String → List ℚ

/-- The state after `timestamps = []` and `metrics_data[metric] = []`. -/
def initSt : St := ⟨[], fun _ => []⟩

/-- `line.startswith('Stats ')`. -/
def startsStats (l : String) : Bool := (stripPre "Stats ".data l.data).isSome

/-- The result table: `np.array(timestamps)` plus one array per registered
metric (unregistered keys read as `[]`). -/
structure Table where
  timestamps : List ℚ
  series : String → List ℚ

/-- Lines 73-88 of the source: if any timestamp was recorded, each metric
array is padded with `0.0` while shorter than `timestamps` and truncated
to `len(timestamps)`; otherwise every metric maps to an empty array.  The
timestamp list itself is returned unchanged. -/
def finalize (st : St) : Table :=
  if st.ts.isEmpty then
    ⟨st.ts, fun _ => []⟩
  else
    ⟨st.ts, fun k =>
      if k ∈ all_metrics then
        ((st.m k ++ List.replicate (st.ts.length - (st.m k).length) 0).take st.ts.length)
      else []⟩

/-- One iteration of the `for line in file` loop (lines 55-71): skip blank
lines, check the `Stats ` prefix, search `Stats (\d+\.\d+):` anywhere in
the line, and on success append the timestamp and extract all metrics. -/
def stepW (fp fi : List Char → Option ℚ) (st : St) (l : String) : Except String St :=
  if isBlank l then Except.ok st
  else if startsStats l then
    match reSearch tsToks l.data with
    | none => Except.ok st
    | some caps =>
      match caps with
      | [c] => do
        let t ← ofOptF (fp c)
        let m ← extract_all_metricsW fp fi l.data st.m
        Except.ok ⟨st.ts ++ [t], m⟩
      | _ => Except.error "no such group"
  else Except.ok st

/-- `LogParser.parse_klippy_log` (lines 31-88), generalized over the
numeric parsers; the input is the file's list of lines. -/
def parse_klippy_logW (fp fi : List Char → Option ℚ) (lines : List String) :
    Except String Table := do
  let st ← lines.foldlM (stepW fp fi) initSt
  pure (finalize st)

/-- `LogParser.parse_klippy_log` with the real parsers. -/
def parse_klippy_log (lines : List String) : Except String Table :=
  parse_klippy_logW parseFloatChars parseIntChars lines

/-- The terminal outcome delivered by `LogParser.run` (lines 24-29): the
parsed table via `dataReady`, or the exception text via `errorOccurred`. -/
inductive Emitted where
  | dataReady : Table → Emitted
  | errorOccurred : String → Emitted

/-- `LogParser.run`: emit the table on success, the error string on any
exception, never both. -/
def runThreadW (fp fi : List Char → Option ℚ) (lines : List String) : Emitted :=
  match parse_klippy_logW fp fi lines with
  | Except.ok d => Emitted.dataReady d
  | Except.error e => Emitted.errorOccurred e

/-- Timestamp sequence of a parse outcome (`[]` on error). -/
def tableTimestamps (r : Except String Table) : List ℚ :=
  match r with
  | Except.ok t => t.timestamps
  | Except.error _ => []

/-- Series of a key in a parse outcome (`[]` on error). -/
def tableSeries (r : Except String Table) (k : String) : List ℚ :=
  match r with
  | Except.ok t => t.series k
  | Except.error _ => []

/-- Code-side line classification: the exact condition under which the
loop body appends a timestamp (non-blank, `Stats ` prefix, and a
successful `re.search('Stats (\d+\.\d+):')` anywhere in the line). -/
def recordLineB (l : String) : Bool :=
  !(isBlank l) && startsStats l && (reSearch tsToks l.data).isSome

/-- The timestamp extracted from a record line (first `Stats \d+\.\d+:`
occurrence; `0` as an irrelevant default on non-record lines). -/
def tsVal (l : String) : ℚ :=
  match reSearch tsToks l.data with
  | some (c :: _) => (parseFloatChars c).getD 0
  | _ => 0

/-- Pure form of one extraction block (the error branch is provably
unreachable for the registry's own blocks). -/
def stageP (f : MetricFamily) (line : List Char) (m : String → List ℚ) :
    String → List ℚ :=
  match reSearch f.toks line with
  | none => appendKeys f.keys (List.replicate f.keys.length 0) m
  | some caps =>
    match f.vals caps with
    | Except.ok vs => appendKeys f.keys vs m
    | Except.error _ => m

/-- Pure form of `extract_all_metrics` (proved equal to it below). -/
def extractP (line : List Char) (m : String → List ℚ) : String → List ℚ :=
  metricFamilies.foldl (fun m f => stageP f line m) m

/-- Pure form of one loop iteration (proved equal to `stepW` with the real
parsers below). -/
def stepP (st : St) (l : String) : St :=
  if recordLineB l then ⟨st.ts ++ [tsVal l], extractP l.data st.m⟩ else st

/-- The parse state after processing a list of lines (pure form; this is
the state "after each processed line" when ranging over the prefixes of a
log). -/
def foldState (lines : List String) : St := lines.foldl stepP initSt

/-- The per-line value a family contributes to one of its keys: the
sentinel `0` when its pattern does not match the line, else the converted
capture for that key. -/
def famValue (f : MetricFamily) (line : List Char) (k : String) : ℚ :=
  match reSearch f.toks line with
  | none => 0
  | some caps =>
    match f.vals caps with
    | Except.ok vs => (keyVal f.keys vs k).getD 0
    | Except.error _ => 0

/-- Modelled from the spec: "A record line is one beginning with the
literal token `Stats ` followed by a floating-point number and a colon"
(anchored at the start of the line, unlike the code's `re.search`). -/
def specIsRecordLine (l : String) : Bool :=
  match stripPre "Stats ".data l.data with
  | some r =>
    match scanFloat r with
    | some (_, ':' :: _) => true
    | _ => false
  | none => false

/-- Modelled from the spec: "the minimum length across the timestamp
sequence and all metric sequences" of a parse state. -/
def specMinLen (st : St) : ℕ :=
  (all_metrics.map (fun k => (st.m k).length)).foldl min st.ts.length

/-- A nonempty all-digit character run. -/
def DigitRun (d : List Char) : Prop := d ≠ [] ∧ ∀ c ∈ d, c.isDigit = true

/-- Shape of a `(\d+\.\d+)` capture. -/
def FloatShape (s : List Char) : Prop :=
  ∃ a b, DigitRun a ∧ DigitRun b ∧ s = a ++ '.' :: b

/-- Shape of a `(\d+)` capture. -/
def IntShape (s : List Char) : Prop := DigitRun s

/-- Shape of a `(\d+(?:\.\d+)?)` capture. -/
def NumShape (s : List Char) : Prop := FloatShape s ∨ IntShape s

/-- The first character, if any, is not a digit. -/
def HeadND : List Char → Prop
  | [] => True
  | c :: _ => c.isDigit = false

theorem scanDigits_none_of_headND {r : List Char} (h : HeadND r) : scanDigits r = none := by
  cases r with
  | nil => rfl
  | cons c cs => simp only [scanDigits]; simp [HeadND] at h; simp [h]

theorem scanDigits_sound : ∀ {cs d r : List Char}, scanDigits cs = some (d, r) →
    DigitRun d ∧ cs = d ++ r := by
  intro cs
  induction cs with
  | nil => intro d r h; simp [scanDigits] at h
  | cons c cs ih =>
    intro d r h
    simp only [scanDigits] at h
    by_cases hc : c.isDigit
    · simp only [hc, if_true] at h
      cases hsc : scanDigits cs with
      | none =>
        rw [hsc] at h
        simp at h
        obtain ⟨hd, hr⟩ := h
        subst hd; subst hr
        exact ⟨⟨by simp, by simp [hc]⟩, rfl⟩
      | some p =>
        rw [hsc] at h
        obtain ⟨d', r'⟩ := p
        simp at h
        obtain ⟨hd, hr⟩ := h
        subst hd; subst hr
        obtain ⟨⟨hne, hdig⟩, heq⟩ := ih hsc
        refine ⟨⟨by simp, ?_⟩, by simp [heq]⟩
        intro x hx
        rcases List.mem_cons.mp hx with h1 | h2
        · subst h1; exact hc
        · exact hdig x h2
    · simp [hc] at h

theorem scanDigits_append {d r : List Char} (hd : DigitRun d) (hr : HeadND r) :
    scanDigits (d ++ r) = some (d, r) := by
  obtain ⟨hne, hdig⟩ := hd
  induction d with
  | nil => exact absurd rfl hne
  | cons c d ih =>
    have hc : c.isDigit = true := hdig c (by simp)
    simp only [List.cons_append, scanDigits, hc, if_true, List.append_eq]
    cases d with
    | nil => simp only [List.nil_append]; rw [scanDigits_none_of_headND hr]
    | cons c' d' =>
      rw [ih (by simp) (fun x hx => hdig x (List.mem_cons_of_mem c hx))]

theorem scanFloat_shape {cs cap r : List Char} (h : scanFloat cs = some (cap, r)) :
    FloatShape cap := by
  simp only [scanFloat] at h
  split at h
  · rename_i a r1 h1
    split at h
    · rename_i b r2 h2
      simp only [Option.some.injEq, Prod.mk.injEq] at h
      exact ⟨a, b, (scanDigits_sound h1).1, (scanDigits_sound h2).1, h.1.symm⟩
    · simp at h
  · simp at h

theorem scanDigits_shape {cs cap r : List Char} (h : scanDigits cs = some (cap, r)) :
    IntShape cap := (scanDigits_sound h).1

theorem scanNum_shape {cs cap r : List Char} (h : scanNum cs = some (cap, r)) :
    NumShape cap := by
  simp only [scanNum] at h
  split at h
  · rename_i a r1 h1
    split at h
    · rename_i b r2 h2
      simp only [Option.some.injEq, Prod.mk.injEq] at h
      exact Or.inl ⟨a, b, (scanDigits_sound h1).1, (scanDigits_sound h2).1, h.1.symm⟩
    · simp only [Option.some.injEq, Prod.mk.injEq] at h
      exact Or.inr (h.1 ▸ (scanDigits_sound h1).1)
  · rename_i a r1 hne h1
    simp only [Option.some.injEq, Prod.mk.injEq] at h
    exact Or.inr (h.1 ▸ (scanDigits_sound h1).1)
  · simp at h

theorem parseFloat_of_float {s : List Char} (h : FloatShape s) :
    ∃ q, parseFloatChars s = some q := by
  obtain ⟨a, b, ha, hb, hs⟩ := h
  subst hs
  unfold parseFloatChars
  rw [scanDigits_append ha (by simp [HeadND])]
  have hb' : scanDigits b = some (b, []) := by
    have := @scanDigits_append b [] hb (by simp [HeadND])
    simpa using this
  simp [hb']

theorem parseFloat_of_int {s : List Char} (h : IntShape s) :
    ∃ q, parseFloatChars s = some q := by
  unfold parseFloatChars
  have : scanDigits s = some (s, []) := by
    have := @scanDigits_append s [] h (by simp [HeadND])
    simpa using this
  simp [this]

theorem parseFloat_of_num {s : List Char} (h : NumShape s) :
    ∃ q, parseFloatChars s = some q := by
  cases h with
  | inl hf => exact parseFloat_of_float hf
  | inr hi => exact parseFloat_of_int hi

theorem parseInt_of_int {s : List Char} (h : IntShape s) :
    ∃ q, parseIntChars s = some q := by
  unfold parseIntChars
  have : scanDigits s = some (s, []) := by
    have := @scanDigits_append s [] h (by simp [HeadND])
    simpa using this
  simp [this]

theorem parseFloat_nonneg {s : List Char} {q : ℚ} (h : parseFloatChars s = some q) :
    0 ≤ q := by
  unfold parseFloatChars at h
  split at h
  · simp only [Option.some.injEq] at h
    subst h; positivity
  · split at h
    · simp only [Option.some.injEq] at h
      subst h; positivity
    · simp at h
  · simp at h

theorem parseInt_nonneg {s : List Char} {q : ℚ} (h : parseIntChars s = some q) :
    0 ≤ q := by
  unfold parseIntChars at h
  split at h
  · simp only [Option.some.injEq] at h
    subst h; positivity
  · simp at h

/-- The capture kinds of a token list, in capture order. -/
inductive Kind where
  | kf : Kind
  | ki : Kind
  | kn : Kind
deriving DecidableEq, Repr

/-- Capture kind of a single token, if it captures. -/
def capKind : Tok → Option Kind
  | Tok.capF => some Kind.kf
  | Tok.capI => some Kind.ki
  | Tok.capN => some Kind.kn
  | _ => none

/-- Capture kinds of a pattern, in order. -/
def capKinds (ts : List Tok) : List Kind := ts.filterMap capKind

/-- The shape a capture of each kind is guaranteed to have. -/
def ShapeOf : Kind → List Char → Prop
  | Kind.kf => FloatShape
  | Kind.ki => IntShape
  | Kind.kn => NumShape

theorem gapRun_shape_aux {ts : List Tok}
    (H : ∀ cs caps, matchToks ts cs = some caps → List.Forall₂ ShapeOf (capKinds ts) caps) :
    ∀ cs caps, gapRun (fun r => matchToks ts r) cs = some caps →
      List.Forall₂ ShapeOf (capKinds ts) caps := by
  intro cs
  induction cs with
  | nil =>
    intro caps h
    rw [gapRun] at h
    exact H _ _ h
  | cons c cs ih =>
    intro caps h
    rw [gapRun] at h
    cases hm : matchToks ts (c :: cs) with
    | some caps' => rw [hm] at h; simp at h; exact h ▸ H _ _ hm
    | none =>
      rw [hm] at h
      simp only at h
      split at h
      · simp at h
      · exact ih _ h

theorem matchToks_shape : ∀ (ts : List Tok) (cs caps),
    matchToks ts cs = some caps → List.Forall₂ ShapeOf (capKinds ts) caps := by
  intro ts
  induction ts with
  | nil =>
    intro cs caps h
    rw [matchToks] at h
    simp at h
    simp [capKinds, ← h]
  | cons t ts ih =>
    intro cs caps h
    cases t with
    | lit l =>
      rw [matchToks] at h
      split at h
      · rename_i r hsp
        have : capKinds (Tok.lit l :: ts) = capKinds ts := by simp [capKinds, capKind]
        rw [this]
        exact ih _ _ h
      · simp at h
    | capF =>
      rw [matchToks] at h
      split at h
      · rename_i cap r hsc
        split at h
        · rename_i caps' hm
          simp at h
          have : capKinds (Tok.capF :: ts) = Kind.kf :: capKinds ts := by
            simp [capKinds, capKind]
          rw [this, ← h]
          exact List.Forall₂.cons (scanFloat_shape hsc) (ih _ _ hm)
        · simp at h
      · simp at h
    | capI =>
      rw [matchToks] at h
      split at h
      · rename_i cap r hsc
        split at h
        · rename_i caps' hm
          simp at h
          have : capKinds (Tok.capI :: ts) = Kind.ki :: capKinds ts := by
            simp [capKinds, capKind]
          rw [this, ← h]
          exact List.Forall₂.cons (scanDigits_shape hsc) (ih _ _ hm)
        · simp at h
      · simp at h
    | capN =>
      rw [matchToks] at h
      split at h
      · rename_i cap r hsc
        split at h
        · rename_i caps' hm
          simp at h
          have : capKinds (Tok.capN :: ts) = Kind.kn :: capKinds ts := by
            simp [capKinds, capKind]
          rw [this, ← h]
          exact List.Forall₂.cons (scanNum_shape hsc) (ih _ _ hm)
        · simp at h
      · simp at h
    | gap =>
      rw [matchToks] at h
      have : capKinds (Tok.gap :: ts) = capKinds ts := by simp [capKinds, capKind]
      rw [this]
      exact gapRun_shape_aux ih _ _ h

theorem reSearch_matchToks : ∀ (ts : List Tok) (s caps),
    reSearch ts s = some caps → ∃ s', matchToks ts s' = some caps := by
  intro ts s
  induction s with
  | nil =>
    intro caps h
    rw [reSearch] at h
    exact ⟨[], h⟩
  | cons c cs ih =>
    intro caps h
    rw [reSearch] at h
    cases hm : matchToks ts (c :: cs) with
    | some caps' => rw [hm] at h; simp at h; exact ⟨c :: cs, h ▸ hm⟩
    | none => rw [hm] at h; exact ih _ h

theorem reSearch_shape {ts : List Tok} {s caps}
    (h : reSearch ts s = some caps) : List.Forall₂ ShapeOf (capKinds ts) caps := by
  obtain ⟨s', hm⟩ := reSearch_matchToks ts s caps h
  exact matchToks_shape _ _ _ hm

theorem appendKeys_not_mem : ∀ (ks : List String) (vs : List ℚ) (m : String → List ℚ)
    (k : String), k ∉ ks → appendKeys ks vs m k = m k := by
  intro ks
  induction ks with
  | nil => intro vs m k _; rfl
  | cons k0 ks ih =>
    intro vs m k hk
    cases vs with
    | nil => rfl
    | cons v vs =>
      simp only [appendKeys]
      rw [ih _ _ _ (fun h => hk (List.mem_cons_of_mem _ h))]
      simp only [List.mem_cons, not_or] at hk
      simp [hk.1]

theorem appendKeys_mem : ∀ (ks : List String) (vs : List ℚ) (m : String → List ℚ)
    (k : String), ks.Nodup → vs.length = ks.length → k ∈ ks →
    appendKeys ks vs m k = m k ++ [(keyVal ks vs k).getD 0] := by
  intro ks
  induction ks with
  | nil => intro vs m k _ _ hk; simp at hk
  | cons k0 ks ih =>
    intro vs m k hnd hlen hk
    cases vs with
    | nil => simp at hlen
    | cons v vs =>
      simp only [appendKeys, keyVal]
      by_cases hkk : k = k0
      · subst hkk
        have hnotin : k ∉ ks := (List.nodup_cons.mp hnd).1
        rw [appendKeys_not_mem _ _ _ _ hnotin]
        simp
      · have hk' : k ∈ ks := by
          rcases List.mem_cons.mp hk with h | h
          · exact absurd h hkk
          · exact h
        rw [ih _ _ _ (List.nodup_cons.mp hnd).2 (by simpa using hlen) hk']
        simp [hkk]

theorem keyVal_mem_of_some : ∀ (ks : List String) (vs : List ℚ) (k : String) (v : ℚ),
    keyVal ks vs k = some v → v ∈ vs := by
  intro ks
  induction ks with
  | nil => intro vs k v h; exact absurd h (by simp [keyVal])
  | cons k0 ks ih =>
    intro vs k v h
    cases vs with
    | nil => exact absurd h (by simp [keyVal])
    | cons v0 vs =>
      simp only [keyVal] at h
      by_cases hkk : k = k0
      · simp [hkk] at h; simp [h]
      · simp only [hkk, if_false] at h
        exact List.mem_cons_of_mem _ (ih _ _ _ h)

theorem keyVal_replicate_getD (ks : List String) (n : ℕ) (k : String) :
    (keyVal ks (List.replicate n 0) k).getD 0 = 0 := by
  cases h : keyVal ks (List.replicate n 0) k with
  | none => rfl
  | some v =>
    have := keyVal_mem_of_some _ _ _ _ h
    simp only [List.mem_replicate] at this
    simp [this.2]

/-- A well-formed extraction block: keys are distinct, and on any capture
list its pattern can produce, the conversion succeeds, yields one value
per key, and every value is nonnegative. -/
def FamOk (f : MetricFamily) : Prop :=
  f.keys.Nodup ∧ ∀ cs caps, matchToks f.toks cs = some caps →
    ∃ vs, f.vals caps = Except.ok vs ∧ vs.length = f.keys.length ∧ ∀ v ∈ vs, 0 ≤ v

theorem exceptBind_ok {α β γ : Type} (a : α) (f : α → Except γ β) :
    (Except.ok a : Except γ α) >>= f = f a := rfl

theorem exceptPure_eq {α γ : Type} (a : α) : (pure a : Except γ α) = Except.ok a := rfl

theorem famOk_mcu : FamOk (mcuFamilyW parseFloatChars parseIntChars) := by
  constructor
  · decide
  intro cs caps h
  have hs := matchToks_shape _ _ _ h
  have hk : capKinds (mcuFamilyW parseFloatChars parseIntChars).toks =
      [Kind.kf, Kind.kf, Kind.kf, Kind.ki, Kind.ki, Kind.ki, Kind.ki, Kind.ki,
       Kind.kf, Kind.kf, Kind.kf] := by decide
  rw [hk] at hs
  obtain - | ⟨h1, hs⟩ := hs
  obtain - | ⟨h2, hs⟩ := hs
  obtain - | ⟨h3, hs⟩ := hs
  obtain - | ⟨h4, hs⟩ := hs
  obtain - | ⟨h5, hs⟩ := hs
  obtain - | ⟨h6, hs⟩ := hs
  obtain - | ⟨h7, hs⟩ := hs
  obtain - | ⟨h8, hs⟩ := hs
  obtain - | ⟨h9, hs⟩ := hs
  obtain - | ⟨h10, hs⟩ := hs
  obtain - | ⟨h11, hs⟩ := hs
  cases hs
  obtain ⟨q1, e1⟩ := parseFloat_of_float h1
  obtain ⟨q2, e2⟩ := parseFloat_of_float h2
  obtain ⟨q4, e4⟩ := parseInt_of_int h4
  obtain ⟨q5, e5⟩ := parseInt_of_int h5
  obtain ⟨q6, e6⟩ := parseInt_of_int h6
  obtain ⟨q7, e7⟩ := parseInt_of_int h7
  obtain ⟨q8, e8⟩ := parseInt_of_int h8
  obtain ⟨q9, e9⟩ := parseFloat_of_float h9
  obtain ⟨q10, e10⟩ := parseFloat_of_float h10
  obtain ⟨q11, e11⟩ := parseFloat_of_float h11
  refine ⟨[q2 * 100000, (q4 + q5) / 1024, q1 * 100, q4, q5, q6, q7, q8,
           q9 * 1000, q10 * 1000, q11 * 1000], ?_, rfl, ?_⟩
  · simp [mcuFamilyW, e1, e2, e4, e5, e6, e7, e8, e9, e10, e11, ofOptF, ofOptI,
          exceptBind_ok, exceptPure_eq]
  · have n1 := parseFloat_nonneg e1
    have n2 := parseFloat_nonneg e2
    have n4 := parseInt_nonneg e4
    have n5 := parseInt_nonneg e5
    have n6 := parseInt_nonneg e6
    have n7 := parseInt_nonneg e7
    have n8 := parseInt_nonneg e8
    have n9 := parseFloat_nonneg e9
    have n10 := parseFloat_nonneg e10
    have n11 := parseFloat_nonneg e11
    intro v hv
    simp only [List.mem_cons, List.not_mem_nil, or_false] at hv
    rcases hv with rfl | rfl | rfl | rfl | rfl | rfl | rfl | rfl | rfl | rfl | rfl
    · exact mul_nonneg n2 (by norm_num)
    · exact div_nonneg (add_nonneg n4 n5) (by norm_num)
    · exact mul_nonneg n1 (by norm_num)
    · exact n4
    · exact n5
    · exact n6
    · exact n7
    · exact n8
    · exact mul_nonneg n9 (by norm_num)
    · exact mul_nonneg n10 (by norm_num)
    · exact mul_nonneg n11 (by norm_num)

theorem famOk_toolhead (n : ℕ)
    (hnd : (toolheadFamilyW parseFloatChars parseIntChars n).keys.Nodup) :
    FamOk (toolheadFamilyW parseFloatChars parseIntChars n) := by
  refine ⟨hnd, ?_⟩
  intro cs caps h
  have hs := matchToks_shape _ _ _ h
  have hk : capKinds (toolheadFamilyW parseFloatChars parseIntChars n).toks =
      [Kind.kf, Kind.kf, Kind.ki, Kind.ki, Kind.ki] := by
    simp [toolheadFamilyW, toolheadToks, capKinds, capKind]
  rw [hk] at hs
  obtain - | ⟨h1, hs⟩ := hs
  obtain - | ⟨h2, hs⟩ := hs
  obtain - | ⟨h3, hs⟩ := hs
  obtain - | ⟨h4, hs⟩ := hs
  obtain - | ⟨h5, hs⟩ := hs
  cases hs
  obtain ⟨q1, e1⟩ := parseFloat_of_float h1
  obtain ⟨q2, e2⟩ := parseFloat_of_float h2
  obtain ⟨q3, e3⟩ := parseInt_of_int h3
  obtain ⟨q4, e4⟩ := parseInt_of_int h4
  obtain ⟨q5, e5⟩ := parseInt_of_int h5
  refine ⟨[q2 * 100000, (q3 + q4) / 1024, q1 * 100, q3, q4, q5 / 1000000], ?_, rfl, ?_⟩
  · simp [toolheadFamilyW, e1, e2, e3, e4, e5, ofOptF, ofOptI, exceptBind_ok, exceptPure_eq]
  · have n1 := parseFloat_nonneg e1
    have n2 := parseFloat_nonneg e2
    have n3 := parseInt_nonneg e3
    have n4 := parseInt_nonneg e4
    have n5 := parseInt_nonneg e5
    intro v hv
    simp only [List.mem_cons, List.not_mem_nil, or_false] at hv
    rcases hv with rfl | rfl | rfl | rfl | rfl | rfl
    · exact mul_nonneg n2 (by norm_num)
    · exact div_nonneg (add_nonneg n3 n4) (by norm_num)
    · exact mul_nonneg n1 (by norm_num)
    · exact n3
    · exact n4
    · exact div_nonneg n5 (by norm_num)

theorem famOk_heaterBed : FamOk (heaterBedFamilyW parseFloatChars) := by
  refine ⟨by decide, ?_⟩
  intro cs caps h
  have hs := matchToks_shape _ _ _ h
  have hk : capKinds (heaterBedFamilyW parseFloatChars).toks =
      [Kind.kn, Kind.kf, Kind.kf] := by decide
  rw [hk] at hs
  obtain - | ⟨h1, hs⟩ := hs
  obtain - | ⟨h2, hs⟩ := hs
  obtain - | ⟨h3, hs⟩ := hs
  cases hs
  obtain ⟨q1, e1⟩ := parseFloat_of_num h1
  obtain ⟨q2, e2⟩ := parseFloat_of_float h2
  obtain ⟨q3, e3⟩ := parseFloat_of_float h3
  refine ⟨[q1, q2, q3 * 100], ?_, rfl, ?_⟩
  · simp [heaterBedFamilyW, e1, e2, e3, ofOptF, exceptBind_ok, exceptPure_eq]
  · have n1 := parseFloat_nonneg e1
    have n2 := parseFloat_nonneg e2
    have n3 := parseFloat_nonneg e3
    intro v hv
    simp only [List.mem_cons, List.not_mem_nil, or_false] at hv
    rcases hv with rfl | rfl | rfl
    · exact n1
    · exact n2
    · exact mul_nonneg n3 (by norm_num)

theorem famOk_extruder (name : String)
    (hnd : (extruderFamilyW parseFloatChars name).keys.Nodup) :
    FamOk (extruderFamilyW parseFloatChars name) := by
  refine ⟨hnd, ?_⟩
  intro cs caps h
  have hs := matchToks_shape _ _ _ h
  have hk : capKinds (extruderFamilyW parseFloatChars name).toks =
      [Kind.kn, Kind.kf, Kind.kf] := by
    simp [extruderFamilyW, extruderToks, capKinds, capKind]
  rw [hk] at hs
  obtain - | ⟨h1, hs⟩ := hs
  obtain - | ⟨h2, hs⟩ := hs
  obtain - | ⟨h3, hs⟩ := hs
  cases hs
  obtain ⟨q1, e1⟩ := parseFloat_of_num h1
  obtain ⟨q2, e2⟩ := parseFloat_of_float h2
  obtain ⟨q3, e3⟩ := parseFloat_of_float h3
  refine ⟨[q1, q2, q3 * 100], ?_, rfl, ?_⟩
  · simp [extruderFamilyW, e1, e2, e3, ofOptF, exceptBind_ok, exceptPure_eq]
  · have n1 := parseFloat_nonneg e1
    have n2 := parseFloat_nonneg e2
    have n3 := parseFloat_nonneg e3
    intro v hv
    simp only [List.mem_cons, List.not_mem_nil, or_false] at hv
    rcases hv with rfl | rfl | rfl
    · exact n1
    · exact n2
    · exact mul_nonneg n3 (by norm_num)

theorem famOk_scalar (key : String) (toks : List Tok) (t : ℚ → ℚ)
    (hk : capKinds toks = [Kind.kf] ∨ capKinds toks = [Kind.ki])
    (ht : ∀ q, 0 ≤ q → 0 ≤ t q) :
    FamOk (scalarFamilyW parseFloatChars key toks t) := by
  refine ⟨by simp [scalarFamilyW], ?_⟩
  intro cs caps h
  have hs := matchToks_shape _ _ _ h
  have hcap : ∃ c, caps = [c] ∧ ∃ q, parseFloatChars c = some q := by
    rcases hk with hk | hk
    · rw [show capKinds (scalarFamilyW parseFloatChars key toks t).toks = [Kind.kf] from hk] at hs
      obtain - | ⟨h1, hs⟩ := hs
      cases hs
      exact ⟨_, rfl, parseFloat_of_float h1⟩
    · rw [show capKinds (scalarFamilyW parseFloatChars key toks t).toks = [Kind.ki] from hk] at hs
      obtain - | ⟨h1, hs⟩ := hs
      cases hs
      exact ⟨_, rfl, parseFloat_of_int h1⟩
  obtain ⟨c, rfl, q, e⟩ := hcap
  refine ⟨[t q], ?_, rfl, ?_⟩
  · simp [scalarFamilyW, e, ofOptF, exceptBind_ok, exceptPure_eq]
  · intro v hv
    simp only [List.mem_cons, List.not_mem_nil, or_false] at hv
    rcases hv with rfl
    exact ht q (parseFloat_nonneg e)

theorem famOk_all : ∀ f ∈ metricFamilies, FamOk f := by
  intro f hf
  simp only [metricFamilies, metricFamiliesW, List.mem_cons, List.not_mem_nil, or_false] at hf
  rcases hf with rfl | rfl | rfl | rfl | rfl | rfl | rfl | rfl | rfl | rfl | rfl | rfl
  · exact famOk_mcu
  · exact famOk_toolhead 0 (by decide)
  · exact famOk_toolhead 1 (by decide)
  · exact famOk_heaterBed
  · exact famOk_extruder "extruder" (by decide)
  · exact famOk_extruder "extruder1" (by decide)
  · exact famOk_scalar _ _ _ (Or.inl (by decide)) (fun q hq => hq)
  · exact famOk_scalar _ _ _ (Or.inl (by decide)) (fun q hq => hq)
  · exact famOk_scalar _ _ _ (Or.inr (by decide)) (fun q hq => div_nonneg hq (by norm_num))
  · exact famOk_scalar _ _ _ (Or.inl (by decide)) (fun q hq => hq)
  · exact famOk_scalar _ _ _ (Or.inr (by decide)) (fun q hq => hq)
  · exact famOk_scalar _ _ _ (Or.inl (by decide)) (fun q hq => hq)

theorem runFamily_ok {f : MetricFamily} (hf : FamOk f) (line : List Char)
    (m : String → List ℚ) : runFamily f line m = Except.ok (stageP f line m) := by
  cases hr : reSearch f.toks line with
  | none => simp only [runFamily, stageP, hr]; rfl
  | some caps =>
    obtain ⟨s', hm⟩ := reSearch_matchToks _ _ _ hr
    obtain ⟨vs, hvs, -, -⟩ := hf.2 s' caps hm
    simp only [runFamily, stageP, hr, hvs]
    rfl

theorem stageP_skip {f : MetricFamily} {k : String} (hk : k ∉ f.keys)
    (line : List Char) (m : String → List ℚ) : stageP f line m k = m k := by
  cases hr : reSearch f.toks line with
  | none =>
    simp only [stageP, hr]
    exact appendKeys_not_mem _ _ _ _ hk
  | some caps =>
    cases hv : f.vals caps with
    | ok vs =>
      simp only [stageP, hr, hv]
      exact appendKeys_not_mem _ _ _ _ hk
    | error e => simp only [stageP, hr, hv]

theorem stageP_val {f : MetricFamily} (hf : FamOk f) {k : String} (hk : k ∈ f.keys)
    (line : List Char) (m : String → List ℚ) :
    stageP f line m k = m k ++ [famValue f line k] := by
  cases hr : reSearch f.toks line with
  | none =>
    simp only [stageP, famValue, hr]
    rw [appendKeys_mem _ _ _ _ hf.1 (by simp) hk, keyVal_replicate_getD]
  | some caps =>
    obtain ⟨s', hm⟩ := reSearch_matchToks _ _ _ hr
    obtain ⟨vs, hvs, hlen, -⟩ := hf.2 s' caps hm
    simp only [stageP, famValue, hr, hvs]
    rw [appendKeys_mem _ _ _ _ hf.1 hlen hk]

theorem famValue_nonneg {f : MetricFamily} (hf : FamOk f) (line : List Char)
    (k : String) : 0 ≤ famValue f line k := by
  cases hr : reSearch f.toks line with
  | none => simp only [famValue, hr]; exact le_refl 0
  | some caps =>
    obtain ⟨s', hm⟩ := reSearch_matchToks _ _ _ hr
    obtain ⟨vs, hvs, -, hnn⟩ := hf.2 s' caps hm
    simp only [famValue, hr, hvs]
    cases hkv : keyVal f.keys vs k with
    | none => simp
    | some v =>
      simp only [Option.getD_some]
      exact hnn v (keyVal_mem_of_some _ _ _ _ hkv)

theorem foldFam_ok (line : List Char) : ∀ (fs : List MetricFamily),
    (∀ f ∈ fs, FamOk f) → ∀ m,
    fs.foldlM (fun m f => runFamily f line m) m =
      Except.ok (fs.foldl (fun m f => stageP f line m) m) := by
  intro fs
  induction fs with
  | nil => intro _ m; rfl
  | cons f fs ih =>
    intro hok m
    rw [List.foldlM_cons, List.foldl_cons]
    rw [runFamily_ok (hok f (by simp)) line m]
    rw [exceptBind_ok]
    exact ih (fun g hg => hok g (List.mem_cons_of_mem _ hg)) _

theorem extract_ok (line : List Char) (m : String → List ℚ) :
    extract_all_metrics line m = Except.ok (extractP line m) := by
  unfold extract_all_metrics extract_all_metricsW extractP
  exact foldFam_ok line metricFamilies famOk_all m

theorem foldFam_skip (line : List Char) {k : String} : ∀ (fs : List MetricFamily),
    (∀ f ∈ fs, k ∉ f.keys) → ∀ m,
    (fs.foldl (fun m f => stageP f line m) m) k = m k := by
  intro fs
  induction fs with
  | nil => intro _ m; rfl
  | cons f fs ih =>
    intro hns m
    rw [List.foldl_cons]
    rw [ih (fun g hg => hns g (List.mem_cons_of_mem _ hg))]
    exact stageP_skip (hns f (by simp)) line m

theorem extractP_val {pre post : List MetricFamily} {fam : MetricFamily} {k : String}
    (hsplit : metricFamilies = pre ++ fam :: post) (hfam : FamOk fam)
    (hk : k ∈ fam.keys) (hpre : ∀ f ∈ pre, k ∉ f.keys)
    (hpost : ∀ f ∈ post, k ∉ f.keys) (line : List Char) (m : String → List ℚ) :
    extractP line m k = m k ++ [famValue fam line k] := by
  unfold extractP
  rw [hsplit, List.foldl_append, List.foldl_cons]
  rw [foldFam_skip line post hpost]
  rw [stageP_val hfam hk]
  congr 1
  exact foldFam_skip line pre hpre m

/-- Abbreviations for the twelve registry entries (with real parsers). -/
def famM : MetricFamily := mcuFamilyW parseFloatChars parseIntChars

/-- Toolhead0 family (real parsers). -/
def famT0 : MetricFamily := toolheadFamilyW parseFloatChars parseIntChars 0

/-- Toolhead1 family (real parsers). -/
def famT1 : MetricFamily := toolheadFamilyW parseFloatChars parseIntChars 1

/-- Heater-bed family (real parsers). -/
def famHB : MetricFamily := heaterBedFamilyW parseFloatChars

/-- Extruder family (real parsers). -/
def famE0 : MetricFamily := extruderFamilyW parseFloatChars "extruder"

/-- Extruder1 family (real parsers). -/
def famE1 : MetricFamily := extruderFamilyW parseFloatChars "extruder1"

/-- sysload family (real parsers). -/
def famSL : MetricFamily := scalarFamilyW parseFloatChars "sysload" [Tok.lit "sysload=".data, Tok.capF] (fun v => v)

/-- cputime family (real parsers). -/
def famCT : MetricFamily := scalarFamilyW parseFloatChars "cputime" [Tok.lit "cputime=".data, Tok.capF] (fun v => v)

/-- memavail family (real parsers). -/
def famMA : MetricFamily := scalarFamilyW parseFloatChars "memavail" [Tok.lit "memavail=".data, Tok.capI] (fun v => v / 1024)

/-- print_time family (real parsers). -/
def famPT : MetricFamily := scalarFamilyW parseFloatChars "print_time" [Tok.lit "print_time=".data, Tok.capF] (fun v => v)

/-- print_stall family (real parsers). -/
def famPS : MetricFamily := scalarFamilyW parseFloatChars "print_stall" [Tok.lit "print_stall=".data, Tok.capI] (fun v => v)

/-- buffer_time family (real parsers). -/
def famBU : MetricFamily := scalarFamilyW parseFloatChars "host_buffer" [Tok.lit "buffer_time=".data, Tok.capF] (fun v => v)

theorem metricFamilies_eq : metricFamilies =
    [famM, famT0, famT1, famHB, famE0, famE1, famSL, famCT, famMA, famPT, famPS, famBU] := rfl

theorem keys_cover : ∀ k ∈ all_metrics, ∃ pre fam post,
    metricFamilies = pre ++ fam :: post ∧ k ∈ fam.keys ∧
    (∀ f ∈ pre, k ∉ f.keys) ∧ (∀ f ∈ post, k ∉ f.keys) := by
  intro k hk
  rw [metricFamilies_eq]
  by_cases h1 : k ∈ famM.keys
  · refine ⟨[], famM, [famT0, famT1, famHB, famE0, famE1, famSL, famCT, famMA, famPT, famPS, famBU], rfl, h1, ?_, ?_⟩
    · intro f hf; simp at hf
    · intro f hf
      simp only [List.mem_cons, List.not_mem_nil, or_false] at hf
      rcases hf with rfl | rfl | rfl | rfl | rfl | rfl | rfl | rfl | rfl | rfl | rfl
      · exact (by decide : ∀ x ∈ famM.keys, x ∉ famT0.keys) k h1
      · exact (by decide : ∀ x ∈ famM.keys, x ∉ famT1.keys) k h1
      · exact (by decide : ∀ x ∈ famM.keys, x ∉ famHB.keys) k h1
      · exact (by decide : ∀ x ∈ famM.keys, x ∉ famE0.keys) k h1
      · exact (by decide : ∀ x ∈ famM.keys, x ∉ famE1.keys) k h1
      · exact (by decide : ∀ x ∈ famM.keys, x ∉ famSL.keys) k h1
      · exact (by decide : ∀ x ∈ famM.keys, x ∉ famCT.keys) k h1
      · exact (by decide : ∀ x ∈ famM.keys, x ∉ famMA.keys) k h1
      · exact (by decide : ∀ x ∈ famM.keys, x ∉ famPT.keys) k h1
      · exact (by decide : ∀ x ∈ famM.keys, x ∉ famPS.keys) k h1
      · exact (by decide : ∀ x ∈ famM.keys, x ∉ famBU.keys) k h1
  by_cases h2 : k ∈ famT0.keys
  · refine ⟨[famM], famT0, [famT1, famHB, famE0, famE1, famSL, famCT, famMA, famPT, famPS, famBU], rfl, h2, ?_, ?_⟩
    · intro f hf
      simp only [List.mem_cons, List.not_mem_nil, or_false] at hf
      rcases hf with rfl
      · exact h1
    · intro f hf
      simp only [List.mem_cons, List.not_mem_nil, or_false] at hf
      rcases hf with rfl | rfl | rfl | rfl | rfl | rfl | rfl | rfl | rfl | rfl
      · exact (by decide : ∀ x ∈ famT0.keys, x ∉ famT1.keys) k h2
      · exact (by decide : ∀ x ∈ famT0.keys, x ∉ famHB.keys) k h2
      · exact (by decide : ∀ x ∈ famT0.keys, x ∉ famE0.keys) k h2
      · exact (by decide : ∀ x ∈ famT0.keys, x ∉ famE1.keys) k h2
      · exact (by decide : ∀ x ∈ famT0.keys, x ∉ famSL.keys) k h2
      · exact (by decide : ∀ x ∈ famT0.keys, x ∉ famCT.keys) k h2
      · exact (by decide : ∀ x ∈ famT0.keys, x ∉ famMA.keys) k h2
      · exact (by decide : ∀ x ∈ famT0.keys, x ∉ famPT.keys) k h2
      · exact (by decide : ∀ x ∈ famT0.keys, x ∉ famPS.keys) k h2
      · exact (by decide : ∀ x ∈ famT0.keys, x ∉ famBU.keys) k h2
  by_cases h3 : k ∈ famT1.keys
  · refine ⟨[famM, famT0], famT1, [famHB, famE0, famE1, famSL, famCT, famMA, famPT, famPS, famBU], rfl, h3, ?_, ?_⟩
    · intro f hf
      simp only [List.mem_cons, List.not_mem_nil, or_false] at hf
      rcases hf with rfl | rfl
      · exact h1
      · exact h2
    · intro f hf
      simp only [List.mem_cons, List.not_mem_nil, or_false] at hf
      rcases hf with rfl | rfl | rfl | rfl | rfl | rfl | rfl | rfl | rfl
      · exact (by decide : ∀ x ∈ famT1.keys, x ∉ famHB.keys) k h3
      · exact (by decide : ∀ x ∈ famT1.keys, x ∉ famE0.keys) k h3
      · exact (by decide : ∀ x ∈ famT1.keys, x ∉ famE1.keys) k h3
      · exact (by decide : ∀ x ∈ famT1.keys, x ∉ famSL.keys) k h3
      · exact (by decide : ∀ x ∈ famT1.keys, x ∉ famCT.keys) k h3
      · exact (by decide : ∀ x ∈ famT1.keys, x ∉ famMA.keys) k h3
      · exact (by decide : ∀ x ∈ famT1.keys, x ∉ famPT.keys) k h3
      · exact (by decide : ∀ x ∈ famT1.keys, x ∉ famPS.keys) k h3
      · exact (by decide : ∀ x ∈ famT1.keys, x ∉ famBU.keys) k h3
  by_cases h4 : k ∈ famHB.keys
  · refine ⟨[famM, famT0, famT1], famHB, [famE0, famE1, famSL, famCT, famMA, famPT, famPS, famBU], rfl, h4, ?_, ?_⟩
    · intro f hf
      simp only [List.mem_cons, List.not_mem_nil, or_false] at hf
      rcases hf with rfl | rfl | rfl
      · exact h1
      · exact h2
      · exact h3
    · intro f hf
      simp only [List.mem_cons, List.not_mem_nil, or_false] at hf
      rcases hf with rfl | rfl | rfl | rfl | rfl | rfl | rfl | rfl
      · exact (by decide : ∀ x ∈ famHB.keys, x ∉ famE0.keys) k h4
      · exact (by decide : ∀ x ∈ famHB.keys, x ∉ famE1.keys) k h4
      · exact (by decide : ∀ x ∈ famHB.keys, x ∉ famSL.keys) k h4
      · exact (by decide : ∀ x ∈ famHB.keys, x ∉ famCT.keys) k h4
      · exact (by decide : ∀ x ∈ famHB.keys, x ∉ famMA.keys) k h4
      · exact (by decide : ∀ x ∈ famHB.keys, x ∉ famPT.keys) k h4
      · exact (by decide : ∀ x ∈ famHB.keys, x ∉ famPS.keys) k h4
      · exact (by decide : ∀ x ∈ famHB.keys, x ∉ famBU.keys) k h4
  by_cases h5 : k ∈ famE0.keys
  · refine ⟨[famM, famT0, famT1, famHB], famE0, [famE1, famSL, famCT, famMA, famPT, famPS, famBU], rfl, h5, ?_, ?_⟩
    · intro f hf
      simp only [List.mem_cons, List.not_mem_nil, or_false] at hf
      rcases hf with rfl | rfl | rfl | rfl
      · exact h1
      · exact h2
      · exact h3
      · exact h4
    · intro f hf
      simp only [List.mem_cons, List.not_mem_nil, or_false] at hf
      rcases hf with rfl | rfl | rfl | rfl | rfl | rfl | rfl
      · exact (by decide : ∀ x ∈ famE0.keys, x ∉ famE1.keys) k h5
      · exact (by decide : ∀ x ∈ famE0.keys, x ∉ famSL.keys) k h5
      · exact (by decide : ∀ x ∈ famE0.keys, x ∉ famCT.keys) k h5
      · exact (by decide : ∀ x ∈ famE0.keys, x ∉ famMA.keys) k h5
      · exact (by decide : ∀ x ∈ famE0.keys, x ∉ famPT.keys) k h5
      · exact (by decide : ∀ x ∈ famE0.keys, x ∉ famPS.keys) k h5
      · exact (by decide : ∀ x ∈ famE0.keys, x ∉ famBU.keys) k h5
  by_cases h6 : k ∈ famE1.keys
  · refine ⟨[famM, famT0, famT1, famHB, famE0], famE1, [famSL, famCT, famMA, famPT, famPS, famBU], rfl, h6, ?_, ?_⟩
    · intro f hf
      simp only [List.mem_cons, List.not_mem_nil, or_false] at hf
      rcases hf with rfl | rfl | rfl | rfl | rfl
      · exact h1
      · exact h2
      · exact h3
      · exact h4
      · exact h5
    · intro f hf
      simp only [List.mem_cons, List.not_mem_nil, or_false] at hf
      rcases hf with rfl | rfl | rfl | rfl | rfl | rfl
      · exact (by decide : ∀ x ∈ famE1.keys, x ∉ famSL.keys) k h6
      · exact (by decide : ∀ x ∈ famE1.keys, x ∉ famCT.keys) k h6
      · exact (by decide : ∀ x ∈ famE1.keys, x ∉ famMA.keys) k h6
      · exact (by decide : ∀ x ∈ famE1.keys, x ∉ famPT.keys) k h6
      · exact (by decide : ∀ x ∈ famE1.keys, x ∉ famPS.keys) k h6
      · exact (by decide : ∀ x ∈ famE1.keys, x ∉ famBU.keys) k h6
  by_cases h7 : k ∈ famSL.keys
  · refine ⟨[famM, famT0, famT1, famHB, famE0, famE1], famSL, [famCT, famMA, famPT, famPS, famBU], rfl, h7, ?_, ?_⟩
    · intro f hf
      simp only [List.mem_cons, List.not_mem_nil, or_false] at hf
      rcases hf with rfl | rfl | rfl | rfl | rfl | rfl
      · exact h1
      · exact h2
      · exact h3
      · exact h4
      · exact h5
      · exact h6
    · intro f hf
      simp only [List.mem_cons, List.not_mem_nil, or_false] at hf
      rcases hf with rfl | rfl | rfl | rfl | rfl
      · exact (by decide : ∀ x ∈ famSL.keys, x ∉ famCT.keys) k h7
      · exact (by decide : ∀ x ∈ famSL.keys, x ∉ famMA.keys) k h7
      · exact (by decide : ∀ x ∈ famSL.keys, x ∉ famPT.keys) k h7
      · exact (by decide : ∀ x ∈ famSL.keys, x ∉ famPS.keys) k h7
      · exact (by decide : ∀ x ∈ famSL.keys, x ∉ famBU.keys) k h7
  by_cases h8 : k ∈ famCT.keys
  · refine ⟨[famM, famT0, famT1, famHB, famE0, famE1, famSL], famCT, [famMA, famPT, famPS, famBU], rfl, h8, ?_, ?_⟩
    · intro f hf
      simp only [List.mem_cons, List.not_mem_nil, or_false] at hf
      rcases hf with rfl | rfl | rfl | rfl | rfl | rfl | rfl
      · exact h1
      · exact h2
      · exact h3
      · exact h4
      · exact h5
      · exact h6
      · exact h7
    · intro f hf
      simp only [List.mem_cons, List.not_mem_nil, or_false] at hf
      rcases hf with rfl | rfl | rfl | rfl
      · exact (by decide : ∀ x ∈ famCT.keys, x ∉ famMA.keys) k h8
      · exact (by decide : ∀ x ∈ famCT.keys, x ∉ famPT.keys) k h8
      · exact (by decide : ∀ x ∈ famCT.keys, x ∉ famPS.keys) k h8
      · exact (by decide : ∀ x ∈ famCT.keys, x ∉ famBU.keys) k h8
  by_cases h9 : k ∈ famMA.keys
  · refine ⟨[famM, famT0, famT1, famHB, famE0, famE1, famSL, famCT], famMA, [famPT, famPS, famBU], rfl, h9, ?_, ?_⟩
    · intro f hf
      simp only [List.mem_cons, List.not_mem_nil, or_false] at hf
      rcases hf with rfl | rfl | rfl | rfl | rfl | rfl | rfl | rfl
      · exact h1
      · exact h2
      · exact h3
      · exact h4
      · exact h5
      · exact h6
      · exact h7
      · exact h8
    · intro f hf
      simp only [List.mem_cons, List.not_mem_nil, or_false] at hf
      rcases hf with rfl | rfl | rfl
      · exact (by decide : ∀ x ∈ famMA.keys, x ∉ famPT.keys) k h9
      · exact (by decide : ∀ x ∈ famMA.keys, x ∉ famPS.keys) k h9
      · exact (by decide : ∀ x ∈ famMA.keys, x ∉ famBU.keys) k h9
  by_cases h10 : k ∈ famPT.keys
  · refine ⟨[famM, famT0, famT1, famHB, famE0, famE1, famSL, famCT, famMA], famPT, [famPS, famBU], rfl, h10, ?_, ?_⟩
    · intro f hf
      simp only [List.mem_cons, List.not_mem_nil, or_false] at hf
      rcases hf with rfl | rfl | rfl | rfl | rfl | rfl | rfl | rfl | rfl
      · exact h1
      · exact h2
      · exact h3
      · exact h4
      · exact h5
      · exact h6
      · exact h7
      · exact h8
      · exact h9
    · intro f hf
      simp only [List.mem_cons, List.not_mem_nil, or_false] at hf
      rcases hf with rfl | rfl
      · exact (by decide : ∀ x ∈ famPT.keys, x ∉ famPS.keys) k h10
      · exact (by decide : ∀ x ∈ famPT.keys, x ∉ famBU.keys) k h10
  by_cases h11 : k ∈ famPS.keys
  · refine ⟨[famM, famT0, famT1, famHB, famE0, famE1, famSL, famCT, famMA, famPT], famPS, [famBU], rfl, h11, ?_, ?_⟩
    · intro f hf
      simp only [List.mem_cons, List.not_mem_nil, or_false] at hf
      rcases hf with rfl | rfl | rfl | rfl | rfl | rfl | rfl | rfl | rfl | rfl
      · exact h1
      · exact h2
      · exact h3
      · exact h4
      · exact h5
      · exact h6
      · exact h7
      · exact h8
      · exact h9
      · exact h10
    · intro f hf
      simp only [List.mem_cons, List.not_mem_nil, or_false] at hf
      rcases hf with rfl
      · exact (by decide : ∀ x ∈ famPS.keys, x ∉ famBU.keys) k h11
  have h12 : k ∈ famBU.keys := by
    have hall : ∀ x ∈ all_metrics, x ∈ famM.keys ∨ x ∈ famT0.keys ∨ x ∈ famT1.keys ∨ x ∈ famHB.keys ∨ x ∈ famE0.keys ∨ x ∈ famE1.keys ∨ x ∈ famSL.keys ∨ x ∈ famCT.keys ∨ x ∈ famMA.keys ∨ x ∈ famPT.keys ∨ x ∈ famPS.keys ∨ x ∈ famBU.keys := by decide
    rcases hall k hk with h | h | h | h | h | h | h | h | h | h | h | h
    · exact absurd h h1
    · exact absurd h h2
    · exact absurd h h3
    · exact absurd h h4
    · exact absurd h h5
    · exact absurd h h6
    · exact absurd h h7
    · exact absurd h h8
    · exact absurd h h9
    · exact absurd h h10
    · exact absurd h h11
    · exact h
  refine ⟨[famM, famT0, famT1, famHB, famE0, famE1, famSL, famCT, famMA, famPT, famPS], famBU, [], rfl, h12, ?_, by simp⟩
  intro f hf
  simp only [List.mem_cons, List.not_mem_nil, or_false] at hf
  rcases hf with rfl | rfl | rfl | rfl | rfl | rfl | rfl | rfl | rfl | rfl | rfl
  · exact h1
  · exact h2
  · exact h3
  · exact h4
  · exact h5
  · exact h6
  · exact h7
  · exact h8
  · exact h9
  · exact h10
  · exact h11

theorem extract_ok' (line : List Char) (m : String → List ℚ) :
    extract_all_metricsW parseFloatChars parseIntChars line m =
      Except.ok (extractP line m) := extract_ok line m

theorem tsToks_caps {l : String} {caps : List (List Char)}
    (h : reSearch tsToks l.data = some caps) : ∃ c, caps = [c] ∧ FloatShape c := by
  have hs := reSearch_shape h
  rw [(by decide : capKinds tsToks = [Kind.kf])] at hs
  obtain - | ⟨h1, hs⟩ := hs
  cases hs
  exact ⟨_, rfl, h1⟩

theorem step_ok (st : St) (l : String) :
    stepW parseFloatChars parseIntChars st l = Except.ok (stepP st l) := by
  by_cases hb : isBlank l
  · simp [stepW, stepP, recordLineB, hb]
  · by_cases hss : startsStats l
    · cases hr : reSearch tsToks l.data with
      | none => simp [stepW, stepP, recordLineB, hb, hss, hr]
      | some caps =>
        obtain ⟨c, rfl, hfs⟩ := tsToks_caps hr
        obtain ⟨q, hq⟩ := parseFloat_of_float hfs
        simp only [stepW, stepP, recordLineB, tsVal, hb, hss, hr, hq, ofOptF,
          Bool.not_false, Bool.and_self, if_false, if_true, Option.isSome_some,
          Bool.and_true, Option.getD_some, extract_ok', exceptBind_ok]
        rfl
    · simp [stepW, stepP, recordLineB, hb, hss]

theorem foldlM_ok (lines : List String) : ∀ st : St,
    lines.foldlM (stepW parseFloatChars parseIntChars) st =
      Except.ok (lines.foldl stepP st) := by
  induction lines with
  | nil => intro st; rfl
  | cons l lines ih =>
    intro st
    rw [List.foldlM_cons, step_ok, exceptBind_ok, List.foldl_cons]
    exact ih _

theorem parse_ok (lines : List String) :
    parse_klippy_log lines = Except.ok (finalize (foldState lines)) := by
  unfold parse_klippy_log parse_klippy_logW foldState
  rw [foldlM_ok]
  rfl

theorem foldl_ts : ∀ (lines : List String) (st : St),
    (lines.foldl stepP st).ts = st.ts ++ (lines.filter recordLineB).map tsVal := by
  intro lines
  induction lines with
  | nil => intro st; simp
  | cons l lines ih =>
    intro st
    rw [List.foldl_cons]
    by_cases hr : recordLineB l
    · rw [List.filter_cons_of_pos hr]
      rw [ih]
      simp [stepP, hr]
    · rw [List.filter_cons_of_neg hr]
      rw [ih]
      simp [stepP, hr]

theorem foldl_m {pre post : List MetricFamily} {fam : MetricFamily} {k : String}
    (hsplit : metricFamilies = pre ++ fam :: post) (hfam : FamOk fam)
    (hk : k ∈ fam.keys) (hpre : ∀ f ∈ pre, k ∉ f.keys)
    (hpost : ∀ f ∈ post, k ∉ f.keys) : ∀ (lines : List String) (st : St),
    (lines.foldl stepP st).m k =
      st.m k ++ (lines.filter recordLineB).map (fun l => famValue fam l.data k) := by
  intro lines
  induction lines with
  | nil => intro st; simp
  | cons l lines ih =>
    intro st
    rw [List.foldl_cons]
    by_cases hr : recordLineB l
    · rw [List.filter_cons_of_pos hr]
      rw [ih]
      simp only [stepP, hr, if_true]
      rw [extractP_val hsplit hfam hk hpre hpost]
      simp
    · rw [List.filter_cons_of_neg hr]
      rw [ih]
      simp [stepP, hr]

theorem finalize_ts (st : St) : (finalize st).timestamps = st.ts := by
  unfold finalize
  split <;> rfl

theorem finalize_series_reg {st : St} {k : String} (hk : k ∈ all_metrics)
    (hlen : (st.m k).length = st.ts.length) : (finalize st).series k = st.m k := by
  unfold finalize
  by_cases he : st.ts.isEmpty
  · have h0 : st.ts = [] := List.isEmpty_iff.mp he
    rw [h0] at hlen ⊢
    simp at hlen
    simp [hlen]
  · rw [if_neg he]
    simp only [hk, if_true]
    rw [← hlen]
    simp

theorem finalize_series_unreg {st : St} {k : String} (hk : k ∉ all_metrics) :
    (finalize st).series k = [] := by
  unfold finalize
  by_cases he : st.ts.isEmpty
  · simp [he]
  · simp [he, hk]

theorem fam_unique {pre post : List MetricFamily} {fam fam' : MetricFamily} {k : String}
    (hsplit : metricFamilies = pre ++ fam' :: post) (hfam : fam ∈ metricFamilies)
    (hk : k ∈ fam.keys) (hpre : ∀ f ∈ pre, k ∉ f.keys)
    (hpost : ∀ f ∈ post, k ∉ f.keys) : fam = fam' := by
  have hmem : fam ∈ pre ++ fam' :: post := hsplit ▸ hfam
  rcases List.mem_append.mp hmem with h | h
  · exact absurd hk (hpre _ h)
  · rcases List.mem_cons.mp h with h | h
    · exact h
    · exact absurd hk (hpost _ h)

theorem famKeys_sub_all : ∀ f ∈ metricFamilies, ∀ k ∈ f.keys, k ∈ all_metrics := by
  intro f hf
  rw [metricFamilies_eq] at hf
  simp only [List.mem_cons, List.not_mem_nil, or_false] at hf
  rcases hf with rfl | rfl | rfl | rfl | rfl | rfl | rfl | rfl | rfl | rfl | rfl | rfl <;> decide

theorem tableTimestamps_ok (t : Table) : tableTimestamps (Except.ok t) = t.timestamps := rfl

theorem tableSeries_ok (t : Table) (k : String) :
    tableSeries (Except.ok t) k = t.series k := rfl

theorem timestamps_char (lines : List String) :
    tableTimestamps (parse_klippy_log lines) = (lines.filter recordLineB).map tsVal := by
  rw [parse_ok, tableTimestamps_ok]
  rw [finalize_ts]
  unfold foldState
  rw [foldl_ts]
  simp [initSt]

theorem foldState_m_char {pre post : List MetricFamily} {fam : MetricFamily} {k : String}
    (hsplit : metricFamilies = pre ++ fam :: post) (hfam : FamOk fam)
    (hk : k ∈ fam.keys) (hpre : ∀ f ∈ pre, k ∉ f.keys)
    (hpost : ∀ f ∈ post, k ∉ f.keys) (lines : List String) :
    (foldState lines).m k =
      (lines.filter recordLineB).map (fun l => famValue fam l.data k) := by
  unfold foldState
  rw [foldl_m hsplit hfam hk hpre hpost]
  simp [initSt]

theorem foldState_ts_char (lines : List String) :
    (foldState lines).ts = (lines.filter recordLineB).map tsVal := by
  unfold foldState
  rw [foldl_ts]
  simp [initSt]

theorem series_char {pre post : List MetricFamily} {fam : MetricFamily} {k : String}
    (hsplit : metricFamilies = pre ++ fam :: post) (hfam : FamOk fam)
    (hk : k ∈ fam.keys) (hka : k ∈ all_metrics) (hpre : ∀ f ∈ pre, k ∉ f.keys)
    (hpost : ∀ f ∈ post, k ∉ f.keys) (lines : List String) :
    tableSeries (parse_klippy_log lines) k =
      (lines.filter recordLineB).map (fun l => famValue fam l.data k) := by
  rw [parse_ok, tableSeries_ok]
  rw [finalize_series_reg hka]
  · exact foldState_m_char hsplit hfam hk hpre hpost lines
  · rw [foldState_m_char hsplit hfam hk hpre hpost lines, foldState_ts_char]
    simp

theorem fam_of_split {pre post : List MetricFamily} {fam : MetricFamily}
    (hsplit : metricFamilies = pre ++ fam :: post) : fam ∈ metricFamilies := by
  rw [hsplit]
  exact List.mem_append.mpr (Or.inr (by simp))

theorem series_char_all {k : String} (hka : k ∈ all_metrics) (lines : List String) :
    ∃ fam ∈ metricFamilies, k ∈ fam.keys ∧
      tableSeries (parse_klippy_log lines) k =
        (lines.filter recordLineB).map (fun l => famValue fam l.data k) := by
  obtain ⟨pre, fam, post, hsplit, hk, hpre, hpost⟩ := keys_cover k hka
  exact ⟨fam, fam_of_split hsplit,
    hk, series_char hsplit (famOk_all fam (fam_of_split hsplit)) hk hka hpre hpost lines⟩

theorem series_len {k : String} (hka : k ∈ all_metrics) (lines : List String) :
    (tableSeries (parse_klippy_log lines) k).length =
      (lines.filter recordLineB).length := by
  obtain ⟨fam, -, -, hchar⟩ := series_char_all hka lines
  rw [hchar, List.length_map]

theorem foldState_len {k : String} (hka : k ∈ all_metrics) (lines : List String) :
    ((foldState lines).m k).length = (foldState lines).ts.length := by
  obtain ⟨pre, fam, post, hsplit, hk, hpre, hpost⟩ := keys_cover k hka
  rw [foldState_m_char hsplit (famOk_all fam (fam_of_split hsplit)) hk hpre hpost lines,
    foldState_ts_char]
  simp

theorem stripPre_eq_some : ∀ (p s r : List Char), stripPre p s = some r ↔ s = p ++ r := by
  intro p
  induction p with
  | nil => intro s r; simp [stripPre]
  | cons a p ih =>
    intro s r
    cases s with
    | nil => simp [stripPre]
    | cons c cs =>
      simp only [stripPre]
      by_cases h : a = c
      · subst h
        simp [ih]
      · simp only [h, if_false]
        constructor
        · intro hc; exact absurd hc (by simp)
        · intro hc
          exact absurd (List.cons_eq_cons.mp hc).1.symm h

theorem reSearch_of_matchToks {ts : List Tok} {s : List Char} {caps : List (List Char)}
    (h : matchToks ts s = some caps) : reSearch ts s = some caps := by
  cases s with
  | nil => rw [reSearch]; exact h
  | cons c cs => rw [reSearch]; rw [h]

theorem reSearch_split {ts : List Tok} : ∀ {s : List Char} {caps : List (List Char)},
    reSearch ts s = some caps → ∃ p suf, s = p ++ suf ∧ matchToks ts suf = some caps := by
  intro s
  induction s with
  | nil =>
    intro caps h
    rw [reSearch] at h
    exact ⟨[], [], rfl, h⟩
  | cons c cs ih =>
    intro caps h
    rw [reSearch] at h
    cases hm : matchToks ts (c :: cs) with
    | some caps' =>
      rw [hm] at h
      simp at h
      exact ⟨[], c :: cs, rfl, h ▸ hm⟩
    | none =>
      rw [hm] at h
      obtain ⟨p, suf, heq, hm'⟩ := ih h
      exact ⟨c :: p, suf, by simp [heq], hm'⟩

/-- C1: Rectangularity.  For any input, with `K` the number of lines the
loop classifies as record lines (`Stats ` prefix with a parseable
`Stats \d+\.\d+:` timestamp), the returned table's timestamp sequence and
the sequence of every registered metric key have length `K`; the equality
of lengths also holds in the internal state after each processed line
(ranging over all prefixes of the log, i.e. over all `lines`). -/
theorem c1_rectangularity (lines : List String) (k : String) (hk : k ∈ all_metrics) :
    ((foldState lines).m k).length = (foldState lines).ts.length ∧
    (tableSeries (parse_klippy_log lines) k).length =
      (tableTimestamps (parse_klippy_log lines)).length ∧
    (tableTimestamps (parse_klippy_log lines)).length =
      (lines.filter recordLineB).length := by
  refine ⟨foldState_len hk lines, ?_, ?_⟩
  · rw [series_len hk lines, timestamps_char, List.length_map]
  · rw [timestamps_char, List.length_map]

/-- Witness for C1 at a concrete two-line log and the key `mcu_load`. -/
theorem c1_rectangularity_witness :
    "mcu_load" ∈ all_metrics ∧
    (tableSeries (parse_klippy_log ["Stats 1.5: sysload=0.25", "junk"]) "mcu_load").length =
      (tableTimestamps (parse_klippy_log ["Stats 1.5: sysload=0.25", "junk"])).length :=
  ⟨by decide, (c1_rectangularity ["Stats 1.5: sysload=0.25", "junk"] "mcu_load" (by decide)).2.1⟩

/-- C8: Empty input.  A log with zero record lines parses successfully to
a table whose timestamp sequence is empty and in which every registered
metric key maps to an empty sequence. -/
theorem c8_empty_input (lines : List String) (h : ∀ l ∈ lines, recordLineB l = false) :
    (∃ t, parse_klippy_log lines = Except.ok t) ∧
    tableTimestamps (parse_klippy_log lines) = [] ∧
    ∀ k ∈ all_metrics, tableSeries (parse_klippy_log lines) k = [] := by
  have hfil : lines.filter recordLineB = [] := by
    rw [List.filter_eq_nil_iff]
    intro l hl
    simp [h l hl]
  refine ⟨⟨_, parse_ok lines⟩, ?_, ?_⟩
  · rw [timestamps_char, hfil]
    rfl
  · intro k hk
    obtain ⟨fam, -, -, hchar⟩ := series_char_all hk lines
    rw [hchar, hfil]
    rfl

/-- Witness for C8 at a concrete log with no record lines. -/
theorem c8_empty_input_witness :
    (∀ l ∈ ["hello", "", "Stats 10:"], recordLineB l = false) ∧
    tableTimestamps (parse_klippy_log ["hello", "", "Stats 10:"]) = [] :=
  ⟨by decide, (c8_empty_input ["hello", "", "Stats 10:"] (by decide)).2.1⟩

/-- C9: Determinism and statelessness.  The parse is a pure function of
the list of input lines: identical content yields identical timestamp
sequences and an identical value sequence at every key (in the embedding
each invocation builds its state from `initSt`, so no state can carry
over between invocations). -/
theorem c9_determinism (lines1 lines2 : List String) (h : lines1 = lines2) :
    tableTimestamps (parse_klippy_log lines1) = tableTimestamps (parse_klippy_log lines2) ∧
    ∀ k, tableSeries (parse_klippy_log lines1) k = tableSeries (parse_klippy_log lines2) k := by
  subst h
  exact ⟨rfl, fun _ => rfl⟩

/-- Witness for C9 at concrete identical contents. -/
theorem c9_determinism_witness :
    tableTimestamps (parse_klippy_log ["Stats 2.5: sysload=0.75"]) =
      tableTimestamps (parse_klippy_log ["Stats 2.5: sysload=0.75"]) :=
  (c9_determinism ["Stats 2.5: sysload=0.75"] ["Stats 2.5: sysload=0.75"] rfl).1

theorem parseFloat_val {s a b : List Char} (hs : scanDigits s = some (a, '.' :: b))
    (hb : scanDigits b = some (b, [])) :
    parseFloatChars s = some ((digitsToNat a : ℚ) + (digitsToNat b : ℚ) / 10 ^ b.length) := by
  simp [parseFloatChars, hs, hb]

theorem parseFloat_valI {s a : List Char} (hs : scanDigits s = some (a, [])) :
    parseFloatChars s = some (digitsToNat a : ℚ) := by
  simp [parseFloatChars, hs]

theorem parseInt_val {s a : List Char} (hs : scanDigits s = some (a, [])) :
    parseIntChars s = some (digitsToNat a : ℚ) := by
  simp [parseIntChars, hs]

theorem tsVal_eval {l : String} {c : List Char} {rest : List (List Char)}
    (hs : reSearch tsToks l.data = some (c :: rest)) :
    tsVal l = (parseFloatChars c).getD 0 := by
  simp [tsVal, hs]

theorem famM_mem : famM ∈ metricFamilies := by
  rw [metricFamilies_eq]; simp

theorem famT0_mem : famT0 ∈ metricFamilies := by
  rw [metricFamilies_eq]; simp

theorem famT1_mem : famT1 ∈ metricFamilies := by
  rw [metricFamilies_eq]; simp

theorem famHB_mem : famHB ∈ metricFamilies := by
  rw [metricFamilies_eq]; simp

theorem famE0_mem : famE0 ∈ metricFamilies := by
  rw [metricFamilies_eq]; simp

theorem famE1_mem : famE1 ∈ metricFamilies := by
  rw [metricFamilies_eq]; simp

theorem famSL_mem : famSL ∈ metricFamilies := by
  rw [metricFamilies_eq]; simp

theorem famCT_mem : famCT ∈ metricFamilies := by
  rw [metricFamilies_eq]; simp

theorem famMA_mem : famMA ∈ metricFamilies := by
  rw [metricFamilies_eq]; simp

theorem famPT_mem : famPT ∈ metricFamilies := by
  rw [metricFamilies_eq]; simp

theorem famPS_mem : famPS ∈ metricFamilies := by
  rw [metricFamilies_eq]; simp

theorem famBU_mem : famBU ∈ metricFamilies := by
  rw [metricFamilies_eq]; simp

theorem series_famM (k : String) (hk : k ∈ famM.keys) (lines : List String) :
    tableSeries (parse_klippy_log lines) k =
      (lines.filter recordLineB).map (fun l => famValue famM l.data k) := by
  refine @series_char [] [famT0, famT1, famHB, famE0, famE1, famSL, famCT, famMA, famPT, famPS, famBU] famM k metricFamilies_eq
    (famOk_all famM famM_mem) hk (famKeys_sub_all famM famM_mem k hk) ?_ ?_ lines
  · intro f hf; simp at hf
  · intro f hf
    simp only [List.mem_cons, List.not_mem_nil, or_false] at hf
    rcases hf with rfl | rfl | rfl | rfl | rfl | rfl | rfl | rfl | rfl | rfl | rfl
    · exact fun hm => (by decide : ∀ x ∈ famM.keys, x ∉ famT0.keys) k hk hm
    · exact fun hm => (by decide : ∀ x ∈ famM.keys, x ∉ famT1.keys) k hk hm
    · exact fun hm => (by decide : ∀ x ∈ famM.keys, x ∉ famHB.keys) k hk hm
    · exact fun hm => (by decide : ∀ x ∈ famM.keys, x ∉ famE0.keys) k hk hm
    · exact fun hm => (by decide : ∀ x ∈ famM.keys, x ∉ famE1.keys) k hk hm
    · exact fun hm => (by decide : ∀ x ∈ famM.keys, x ∉ famSL.keys) k hk hm
    · exact fun hm => (by decide : ∀ x ∈ famM.keys, x ∉ famCT.keys) k hk hm
    · exact fun hm => (by decide : ∀ x ∈ famM.keys, x ∉ famMA.keys) k hk hm
    · exact fun hm => (by decide : ∀ x ∈ famM.keys, x ∉ famPT.keys) k hk hm
    · exact fun hm => (by decide : ∀ x ∈ famM.keys, x ∉ famPS.keys) k hk hm
    · exact fun hm => (by decide : ∀ x ∈ famM.keys, x ∉ famBU.keys) k hk hm

theorem series_famT0 (k : String) (hk : k ∈ famT0.keys) (lines : List String) :
    tableSeries (parse_klippy_log lines) k =
      (lines.filter recordLineB).map (fun l => famValue famT0 l.data k) := by
  refine @series_char [famM] [famT1, famHB, famE0, famE1, famSL, famCT, famMA, famPT, famPS, famBU] famT0 k metricFamilies_eq
    (famOk_all famT0 famT0_mem) hk (famKeys_sub_all famT0 famT0_mem k hk) ?_ ?_ lines
  · intro f hf
    simp only [List.mem_cons, List.not_mem_nil, or_false] at hf
    rcases hf with rfl
    · exact fun hm => (by decide : ∀ x ∈ famT0.keys, x ∉ famM.keys) k hk hm
  · intro f hf
    simp only [List.mem_cons, List.not_mem_nil, or_false] at hf
    rcases hf with rfl | rfl | rfl | rfl | rfl | rfl | rfl | rfl | rfl | rfl
    · exact fun hm => (by decide : ∀ x ∈ famT0.keys, x ∉ famT1.keys) k hk hm
    · exact fun hm => (by decide : ∀ x ∈ famT0.keys, x ∉ famHB.keys) k hk hm
    · exact fun hm => (by decide : ∀ x ∈ famT0.keys, x ∉ famE0.keys) k hk hm
    · exact fun hm => (by decide : ∀ x ∈ famT0.keys, x ∉ famE1.keys) k hk hm
    · exact fun hm => (by decide : ∀ x ∈ famT0.keys, x ∉ famSL.keys) k hk hm
    · exact fun hm => (by decide : ∀ x ∈ famT0.keys, x ∉ famCT.keys) k hk hm
    · exact fun hm => (by decide : ∀ x ∈ famT0.keys, x ∉ famMA.keys) k hk hm
    · exact fun hm => (by decide : ∀ x ∈ famT0.keys, x ∉ famPT.keys) k hk hm
    · exact fun hm => (by decide : ∀ x ∈ famT0.keys, x ∉ famPS.keys) k hk hm
    · exact fun hm => (by decide : ∀ x ∈ famT0.keys, x ∉ famBU.keys) k hk hm

theorem series_famT1 (k : String) (hk : k ∈ famT1.keys) (lines : List String) :
    tableSeries (parse_klippy_log lines) k =
      (lines.filter recordLineB).map (fun l => famValue famT1 l.data k) := by
  refine @series_char [famM, famT0] [famHB, famE0, famE1, famSL, famCT, famMA, famPT, famPS, famBU] famT1 k metricFamilies_eq
    (famOk_all famT1 famT1_mem) hk (famKeys_sub_all famT1 famT1_mem k hk) ?_ ?_ lines
  · intro f hf
    simp only [List.mem_cons, List.not_mem_nil, or_false] at hf
    rcases hf with rfl | rfl
    · exact fun hm => (by decide : ∀ x ∈ famT1.keys, x ∉ famM.keys) k hk hm
    · exact fun hm => (by decide : ∀ x ∈ famT1.keys, x ∉ famT0.keys) k hk hm
  · intro f hf
    simp only [List.mem_cons, List.not_mem_nil, or_false] at hf
    rcases hf with rfl | rfl | rfl | rfl | rfl | rfl | rfl | rfl | rfl
    · exact fun hm => (by decide : ∀ x ∈ famT1.keys, x ∉ famHB.keys) k hk hm
    · exact fun hm => (by decide : ∀ x ∈ famT1.keys, x ∉ famE0.keys) k hk hm
    · exact fun hm => (by decide : ∀ x ∈ famT1.keys, x ∉ famE1.keys) k hk hm
    · exact fun hm => (by decide : ∀ x ∈ famT1.keys, x ∉ famSL.keys) k hk hm
    · exact fun hm => (by decide : ∀ x ∈ famT1.keys, x ∉ famCT.keys) k hk hm
    · exact fun hm => (by decide : ∀ x ∈ famT1.keys, x ∉ famMA.keys) k hk hm
    · exact fun hm => (by decide : ∀ x ∈ famT1.keys, x ∉ famPT.keys) k hk hm
    · exact fun hm => (by decide : ∀ x ∈ famT1.keys, x ∉ famPS.keys) k hk hm
    · exact fun hm => (by decide : ∀ x ∈ famT1.keys, x ∉ famBU.keys) k hk hm

theorem series_famHB (k : String) (hk : k ∈ famHB.keys) (lines : List String) :
    tableSeries (parse_klippy_log lines) k =
      (lines.filter recordLineB).map (fun l => famValue famHB l.data k) := by
  refine @series_char [famM, famT0, famT1] [famE0, famE1, famSL, famCT, famMA, famPT, famPS, famBU] famHB k metricFamilies_eq
    (famOk_all famHB famHB_mem) hk (famKeys_sub_all famHB famHB_mem k hk) ?_ ?_ lines
  · intro f hf
    simp only [List.mem_cons, List.not_mem_nil, or_false] at hf
    rcases hf with rfl | rfl | rfl
    · exact fun hm => (by decide : ∀ x ∈ famHB.keys, x ∉ famM.keys) k hk hm
    · exact fun hm => (by decide : ∀ x ∈ famHB.keys, x ∉ famT0.keys) k hk hm
    · exact fun hm => (by decide : ∀ x ∈ famHB.keys, x ∉ famT1.keys) k hk hm
  · intro f hf
    simp only [List.mem_cons, List.not_mem_nil, or_false] at hf
    rcases hf with rfl | rfl | rfl | rfl | rfl | rfl | rfl | rfl
    · exact fun hm => (by decide : ∀ x ∈ famHB.keys, x ∉ famE0.keys) k hk hm
    · exact fun hm => (by decide : ∀ x ∈ famHB.keys, x ∉ famE1.keys) k hk hm
    · exact fun hm => (by decide : ∀ x ∈ famHB.keys, x ∉ famSL.keys) k hk hm
    · exact fun hm => (by decide : ∀ x ∈ famHB.keys, x ∉ famCT.keys) k hk hm
    · exact fun hm => (by decide : ∀ x ∈ famHB.keys, x ∉ famMA.keys) k hk hm
    · exact fun hm => (by decide : ∀ x ∈ famHB.keys, x ∉ famPT.keys) k hk hm
    · exact fun hm => (by decide : ∀ x ∈ famHB.keys, x ∉ famPS.keys) k hk hm
    · exact fun hm => (by decide : ∀ x ∈ famHB.keys, x ∉ famBU.keys) k hk hm

theorem series_famE0 (k : String) (hk : k ∈ famE0.keys) (lines : List String) :
    tableSeries (parse_klippy_log lines) k =
      (lines.filter recordLineB).map (fun l => famValue famE0 l.data k) := by
  refine @series_char [famM, famT0, famT1, famHB] [famE1, famSL, famCT, famMA, famPT, famPS, famBU] famE0 k metricFamilies_eq
    (famOk_all famE0 famE0_mem) hk (famKeys_sub_all famE0 famE0_mem k hk) ?_ ?_ lines
  · intro f hf
    simp only [List.mem_cons, List.not_mem_nil, or_false] at hf
    rcases hf with rfl | rfl | rfl | rfl
    · exact fun hm => (by decide : ∀ x ∈ famE0.keys, x ∉ famM.keys) k hk hm
    · exact fun hm => (by decide : ∀ x ∈ famE0.keys, x ∉ famT0.keys) k hk hm
    · exact fun hm => (by decide : ∀ x ∈ famE0.keys, x ∉ famT1.keys) k hk hm
    · exact fun hm => (by decide : ∀ x ∈ famE0.keys, x ∉ famHB.keys) k hk hm
  · intro f hf
    simp only [List.mem_cons, List.not_mem_nil, or_false] at hf
    rcases hf with rfl | rfl | rfl | rfl | rfl | rfl | rfl
    · exact fun hm => (by decide : ∀ x ∈ famE0.keys, x ∉ famE1.keys) k hk hm
    · exact fun hm => (by decide : ∀ x ∈ famE0.keys, x ∉ famSL.keys) k hk hm
    · exact fun hm => (by decide : ∀ x ∈ famE0.keys, x ∉ famCT.keys) k hk hm
    · exact fun hm => (by decide : ∀ x ∈ famE0.keys, x ∉ famMA.keys) k hk hm
    · exact fun hm => (by decide : ∀ x ∈ famE0.keys, x ∉ famPT.keys) k hk hm
    · exact fun hm => (by decide : ∀ x ∈ famE0.keys, x ∉ famPS.keys) k hk hm
    · exact fun hm => (by decide : ∀ x ∈ famE0.keys, x ∉ famBU.keys) k hk hm

theorem series_famE1 (k : String) (hk : k ∈ famE1.keys) (lines : List String) :
    tableSeries (parse_klippy_log lines) k =
      (lines.filter recordLineB).map (fun l => famValue famE1 l.data k) := by
  refine @series_char [famM, famT0, famT1, famHB, famE0] [famSL, famCT, famMA, famPT, famPS, famBU] famE1 k metricFamilies_eq
    (famOk_all famE1 famE1_mem) hk (famKeys_sub_all famE1 famE1_mem k hk) ?_ ?_ lines
  · intro f hf
    simp only [List.mem_cons, List.not_mem_nil, or_false] at hf
    rcases hf with rfl | rfl | rfl | rfl | rfl
    · exact fun hm => (by decide : ∀ x ∈ famE1.keys, x ∉ famM.keys) k hk hm
    · exact fun hm => (by decide : ∀ x ∈ famE1.keys, x ∉ famT0.keys) k hk hm
    · exact fun hm => (by decide : ∀ x ∈ famE1.keys, x ∉ famT1.keys) k hk hm
    · exact fun hm => (by decide : ∀ x ∈ famE1.keys, x ∉ famHB.keys) k hk hm
    · exact fun hm => (by decide : ∀ x ∈ famE1.keys, x ∉ famE0.keys) k hk hm
  · intro f hf
    simp only [List.mem_cons, List.not_mem_nil, or_false] at hf
    rcases hf with rfl | rfl | rfl | rfl | rfl | rfl
    · exact fun hm => (by decide : ∀ x ∈ famE1.keys, x ∉ famSL.keys) k hk hm
    · exact fun hm => (by decide : ∀ x ∈ famE1.keys, x ∉ famCT.keys) k hk hm
    · exact fun hm => (by decide : ∀ x ∈ famE1.keys, x ∉ famMA.keys) k hk hm
    · exact fun hm => (by decide : ∀ x ∈ famE1.keys, x ∉ famPT.keys) k hk hm
    · exact fun hm => (by decide : ∀ x ∈ famE1.keys, x ∉ famPS.keys) k hk hm
    · exact fun hm => (by decide : ∀ x ∈ famE1.keys, x ∉ famBU.keys) k hk hm

theorem series_famSL (k : String) (hk : k ∈ famSL.keys) (lines : List String) :
    tableSeries (parse_klippy_log lines) k =
      (lines.filter recordLineB).map (fun l => famValue famSL l.data k) := by
  refine @series_char [famM, famT0, famT1, famHB, famE0, famE1] [famCT, famMA, famPT, famPS, famBU] famSL k metricFamilies_eq
    (famOk_all famSL famSL_mem) hk (famKeys_sub_all famSL famSL_mem k hk) ?_ ?_ lines
  · intro f hf
    simp only [List.mem_cons, List.not_mem_nil, or_false] at hf
    rcases hf with rfl | rfl | rfl | rfl | rfl | rfl
    · exact fun hm => (by decide : ∀ x ∈ famSL.keys, x ∉ famM.keys) k hk hm
    · exact fun hm => (by decide : ∀ x ∈ famSL.keys, x ∉ famT0.keys) k hk hm
    · exact fun hm => (by decide : ∀ x ∈ famSL.keys, x ∉ famT1.keys) k hk hm
    · exact fun hm => (by decide : ∀ x ∈ famSL.keys, x ∉ famHB.keys) k hk hm
    · exact fun hm => (by decide : ∀ x ∈ famSL.keys, x ∉ famE0.keys) k hk hm
    · exact fun hm => (by decide : ∀ x ∈ famSL.keys, x ∉ famE1.keys) k hk hm
  · intro f hf
    simp only [List.mem_cons, List.not_mem_nil, or_false] at hf
    rcases hf with rfl | rfl | rfl | rfl | rfl
    · exact fun hm => (by decide : ∀ x ∈ famSL.keys, x ∉ famCT.keys) k hk hm
    · exact fun hm => (by decide : ∀ x ∈ famSL.keys, x ∉ famMA.keys) k hk hm
    · exact fun hm => (by decide : ∀ x ∈ famSL.keys, x ∉ famPT.keys) k hk hm
    · exact fun hm => (by decide : ∀ x ∈ famSL.keys, x ∉ famPS.keys) k hk hm
    · exact fun hm => (by decide : ∀ x ∈ famSL.keys, x ∉ famBU.keys) k hk hm

theorem series_famCT (k : String) (hk : k ∈ famCT.keys) (lines : List String) :
    tableSeries (parse_klippy_log lines) k =
      (lines.filter recordLineB).map (fun l => famValue famCT l.data k) := by
  refine @series_char [famM, famT0, famT1, famHB, famE0, famE1, famSL] [famMA, famPT, famPS, famBU] famCT k metricFamilies_eq
    (famOk_all famCT famCT_mem) hk (famKeys_sub_all famCT famCT_mem k hk) ?_ ?_ lines
  · intro f hf
    simp only [List.mem_cons, List.not_mem_nil, or_false] at hf
    rcases hf with rfl | rfl | rfl | rfl | rfl | rfl | rfl
    · exact fun hm => (by decide : ∀ x ∈ famCT.keys, x ∉ famM.keys) k hk hm
    · exact fun hm => (by decide : ∀ x ∈ famCT.keys, x ∉ famT0.keys) k hk hm
    · exact fun hm => (by decide : ∀ x ∈ famCT.keys, x ∉ famT1.keys) k hk hm
    · exact fun hm => (by decide : ∀ x ∈ famCT.keys, x ∉ famHB.keys) k hk hm
    · exact fun hm => (by decide : ∀ x ∈ famCT.keys, x ∉ famE0.keys) k hk hm
    · exact fun hm => (by decide : ∀ x ∈ famCT.keys, x ∉ famE1.keys) k hk hm
    · exact fun hm => (by decide : ∀ x ∈ famCT.keys, x ∉ famSL.keys) k hk hm
  · intro f hf
    simp only [List.mem_cons, List.not_mem_nil, or_false] at hf
    rcases hf with rfl | rfl | rfl | rfl
    · exact fun hm => (by decide : ∀ x ∈ famCT.keys, x ∉ famMA.keys) k hk hm
    · exact fun hm => (by decide : ∀ x ∈ famCT.keys, x ∉ famPT.keys) k hk hm
    · exact fun hm => (by decide : ∀ x ∈ famCT.keys, x ∉ famPS.keys) k hk hm
    · exact fun hm => (by decide : ∀ x ∈ famCT.keys, x ∉ famBU.keys) k hk hm

theorem series_famMA (k : String) (hk : k ∈ famMA.keys) (lines : List String) :
    tableSeries (parse_klippy_log lines) k =
      (lines.filter recordLineB).map (fun l => famValue famMA l.data k) := by
  refine @series_char [famM, famT0, famT1, famHB, famE0, famE1, famSL, famCT] [famPT, famPS, famBU] famMA k metricFamilies_eq
    (famOk_all famMA famMA_mem) hk (famKeys_sub_all famMA famMA_mem k hk) ?_ ?_ lines
  · intro f hf
    simp only [List.mem_cons, List.not_mem_nil, or_false] at hf
    rcases hf with rfl | rfl | rfl | rfl | rfl | rfl | rfl | rfl
    · exact fun hm => (by decide : ∀ x ∈ famMA.keys, x ∉ famM.keys) k hk hm
    · exact fun hm => (by decide : ∀ x ∈ famMA.keys, x ∉ famT0.keys) k hk hm
    · exact fun hm => (by decide : ∀ x ∈ famMA.keys, x ∉ famT1.keys) k hk hm
    · exact fun hm => (by decide : ∀ x ∈ famMA.keys, x ∉ famHB.keys) k hk hm
    · exact fun hm => (by decide : ∀ x ∈ famMA.keys, x ∉ famE0.keys) k hk hm
    · exact fun hm => (by decide : ∀ x ∈ famMA.keys, x ∉ famE1.keys) k hk hm
    · exact fun hm => (by decide : ∀ x ∈ famMA.keys, x ∉ famSL.keys) k hk hm
    · exact fun hm => (by decide : ∀ x ∈ famMA.keys, x ∉ famCT.keys) k hk hm
  · intro f hf
    simp only [List.mem_cons, List.not_mem_nil, or_false] at hf
    rcases hf with rfl | rfl | rfl
    · exact fun hm => (by decide : ∀ x ∈ famMA.keys, x ∉ famPT.keys) k hk hm
    · exact fun hm => (by decide : ∀ x ∈ famMA.keys, x ∉ famPS.keys) k hk hm
    · exact fun hm => (by decide : ∀ x ∈ famMA.keys, x ∉ famBU.keys) k hk hm

theorem series_famPT (k : String) (hk : k ∈ famPT.keys) (lines : List String) :
    tableSeries (parse_klippy_log lines) k =
      (lines.filter recordLineB).map (fun l => famValue famPT l.data k) := by
  refine @series_char [famM, famT0, famT1, famHB, famE0, famE1, famSL, famCT, famMA] [famPS, famBU] famPT k metricFamilies_eq
    (famOk_all famPT famPT_mem) hk (famKeys_sub_all famPT famPT_mem k hk) ?_ ?_ lines
  · intro f hf
    simp only [List.mem_cons, List.not_mem_nil, or_false] at hf
    rcases hf with rfl | rfl | rfl | rfl | rfl | rfl | rfl | rfl | rfl
    · exact fun hm => (by decide : ∀ x ∈ famPT.keys, x ∉ famM.keys) k hk hm
    · exact fun hm => (by decide : ∀ x ∈ famPT.keys, x ∉ famT0.keys) k hk hm
    · exact fun hm => (by decide : ∀ x ∈ famPT.keys, x ∉ famT1.keys) k hk hm
    · exact fun hm => (by decide : ∀ x ∈ famPT.keys, x ∉ famHB.keys) k hk hm
    · exact fun hm => (by decide : ∀ x ∈ famPT.keys, x ∉ famE0.keys) k hk hm
    · exact fun hm => (by decide : ∀ x ∈ famPT.keys, x ∉ famE1.keys) k hk hm
    · exact fun hm => (by decide : ∀ x ∈ famPT.keys, x ∉ famSL.keys) k hk hm
    · exact fun hm => (by decide : ∀ x ∈ famPT.keys, x ∉ famCT.keys) k hk hm
    · exact fun hm => (by decide : ∀ x ∈ famPT.keys, x ∉ famMA.keys) k hk hm
  · intro f hf
    simp only [List.mem_cons, List.not_mem_nil, or_false] at hf
    rcases hf with rfl | rfl
    · exact fun hm => (by decide : ∀ x ∈ famPT.keys, x ∉ famPS.keys) k hk hm
    · exact fun hm => (by decide : ∀ x ∈ famPT.keys, x ∉ famBU.keys) k hk hm

theorem series_famPS (k : String) (hk : k ∈ famPS.keys) (lines : List String) :
    tableSeries (parse_klippy_log lines) k =
      (lines.filter recordLineB).map (fun l => famValue famPS l.data k) := by
  refine @series_char [famM, famT0, famT1, famHB, famE0, famE1, famSL, famCT, famMA, famPT] [famBU] famPS k metricFamilies_eq
    (famOk_all famPS famPS_mem) hk (famKeys_sub_all famPS famPS_mem k hk) ?_ ?_ lines
  · intro f hf
    simp only [List.mem_cons, List.not_mem_nil, or_false] at hf
    rcases hf with rfl | rfl | rfl | rfl | rfl | rfl | rfl | rfl | rfl | rfl
    · exact fun hm => (by decide : ∀ x ∈ famPS.keys, x ∉ famM.keys) k hk hm
    · exact fun hm => (by decide : ∀ x ∈ famPS.keys, x ∉ famT0.keys) k hk hm
    · exact fun hm => (by decide : ∀ x ∈ famPS.keys, x ∉ famT1.keys) k hk hm
    · exact fun hm => (by decide : ∀ x ∈ famPS.keys, x ∉ famHB.keys) k hk hm
    · exact fun hm => (by decide : ∀ x ∈ famPS.keys, x ∉ famE0.keys) k hk hm
    · exact fun hm => (by decide : ∀ x ∈ famPS.keys, x ∉ famE1.keys) k hk hm
    · exact fun hm => (by decide : ∀ x ∈ famPS.keys, x ∉ famSL.keys) k hk hm
    · exact fun hm => (by decide : ∀ x ∈ famPS.keys, x ∉ famCT.keys) k hk hm
    · exact fun hm => (by decide : ∀ x ∈ famPS.keys, x ∉ famMA.keys) k hk hm
    · exact fun hm => (by decide : ∀ x ∈ famPS.keys, x ∉ famPT.keys) k hk hm
  · intro f hf
    simp only [List.mem_cons, List.not_mem_nil, or_false] at hf
    rcases hf with rfl
    · exact fun hm => (by decide : ∀ x ∈ famPS.keys, x ∉ famBU.keys) k hk hm

theorem series_famBU (k : String) (hk : k ∈ famBU.keys) (lines : List String) :
    tableSeries (parse_klippy_log lines) k =
      (lines.filter recordLineB).map (fun l => famValue famBU l.data k) := by
  refine @series_char [famM, famT0, famT1, famHB, famE0, famE1, famSL, famCT, famMA, famPT, famPS] [] famBU k metricFamilies_eq
    (famOk_all famBU famBU_mem) hk (famKeys_sub_all famBU famBU_mem k hk) ?_ ?_ lines
  · intro f hf
    simp only [List.mem_cons, List.not_mem_nil, or_false] at hf
    rcases hf with rfl | rfl | rfl | rfl | rfl | rfl | rfl | rfl | rfl | rfl | rfl
    · exact fun hm => (by decide : ∀ x ∈ famBU.keys, x ∉ famM.keys) k hk hm
    · exact fun hm => (by decide : ∀ x ∈ famBU.keys, x ∉ famT0.keys) k hk hm
    · exact fun hm => (by decide : ∀ x ∈ famBU.keys, x ∉ famT1.keys) k hk hm
    · exact fun hm => (by decide : ∀ x ∈ famBU.keys, x ∉ famHB.keys) k hk hm
    · exact fun hm => (by decide : ∀ x ∈ famBU.keys, x ∉ famE0.keys) k hk hm
    · exact fun hm => (by decide : ∀ x ∈ famBU.keys, x ∉ famE1.keys) k hk hm
    · exact fun hm => (by decide : ∀ x ∈ famBU.keys, x ∉ famSL.keys) k hk hm
    · exact fun hm => (by decide : ∀ x ∈ famBU.keys, x ∉ famCT.keys) k hk hm
    · exact fun hm => (by decide : ∀ x ∈ famBU.keys, x ∉ famMA.keys) k hk hm
    · exact fun hm => (by decide : ∀ x ∈ famBU.keys, x ∉ famPT.keys) k hk hm
    · exact fun hm => (by decide : ∀ x ∈ famBU.keys, x ∉ famPS.keys) k hk hm
  · intro f hf; simp at hf

/-- The literal MCU stats line of the specification's scenario. -/
def c4Line : String :=
  "Stats 10.5: mcu: mcu_awake=0.05 mcu_task_avg=0.0002 mcu_task_stddev=0.0001 bytes_write=100 bytes_read=50 bytes_retransmit=0 send_seq=1 receive_seq=1 srtt=0.01 rttvar=0.002 rto=0.05"

/-- C4: Literal MCU scenario.  Parsing a file containing exactly the
specification's MCU stats line yields, at the index of timestamp 10.5:
mcu_load 20 (task_avg × 100000), bandwidth 150/1024 = 75/512 KB,
awake_time 5, mcu_srtt 10 ms, mcu_rttvar 2 ms, mcu_rto 50 ms,
mcu_bytes_write 100, mcu_bytes_read 50, mcu_bytes_retransmit 0. -/
theorem c4_mcu_literal_scenario :
    tableTimestamps (parse_klippy_log [c4Line]) = [21/2] ∧
    tableSeries (parse_klippy_log [c4Line]) "mcu_load" = [20] ∧
    tableSeries (parse_klippy_log [c4Line]) "bandwidth" = [75/512] ∧
    tableSeries (parse_klippy_log [c4Line]) "awake_time" = [5] ∧
    tableSeries (parse_klippy_log [c4Line]) "mcu_srtt" = [10] ∧
    tableSeries (parse_klippy_log [c4Line]) "mcu_rttvar" = [2] ∧
    tableSeries (parse_klippy_log [c4Line]) "mcu_rto" = [50] ∧
    tableSeries (parse_klippy_log [c4Line]) "mcu_bytes_write" = [100] ∧
    tableSeries (parse_klippy_log [c4Line]) "mcu_bytes_read" = [50] ∧
    tableSeries (parse_klippy_log [c4Line]) "mcu_bytes_retransmit" = [0] := by
  have hfil : List.filter recordLineB [c4Line] = [c4Line] := rfl
  have eA : parseFloatChars ['0', '.', '0', '5'] = some (1/20 : ℚ) := by
    rw [@parseFloat_val ['0', '.', '0', '5'] ['0'] ['0', '5'] rfl rfl]
    norm_num [show digitsToNat ['0'] = 0 from rfl, show digitsToNat ['0', '5'] = 5 from rfl]
  have eT : parseFloatChars ['0', '.', '0', '0', '0', '2'] = some (1/5000 : ℚ) := by
    rw [@parseFloat_val ['0', '.', '0', '0', '0', '2'] ['0'] ['0', '0', '0', '2'] rfl rfl]
    norm_num [show digitsToNat ['0'] = 0 from rfl,
      show digitsToNat ['0', '0', '0', '2'] = 2 from rfl]
  have eW : parseIntChars ['1', '0', '0'] = some (100 : ℚ) := by
    rw [@parseInt_val ['1', '0', '0'] ['1', '0', '0'] rfl]
    norm_num [show digitsToNat ['1', '0', '0'] = 100 from rfl]
  have eR : parseIntChars ['5', '0'] = some (50 : ℚ) := by
    rw [@parseInt_val ['5', '0'] ['5', '0'] rfl]
    norm_num [show digitsToNat ['5', '0'] = 50 from rfl]
  have eRT : parseIntChars ['0'] = some (0 : ℚ) := by
    rw [@parseInt_val ['0'] ['0'] rfl]
    norm_num [show digitsToNat ['0'] = 0 from rfl]
  have eS : parseIntChars ['1'] = some (1 : ℚ) := by
    rw [@parseInt_val ['1'] ['1'] rfl]
    norm_num [show digitsToNat ['1'] = 1 from rfl]
  have eSR : parseFloatChars ['0', '.', '0', '1'] = some (1/100 : ℚ) := by
    rw [@parseFloat_val ['0', '.', '0', '1'] ['0'] ['0', '1'] rfl rfl]
    norm_num [show digitsToNat ['0'] = 0 from rfl, show digitsToNat ['0', '1'] = 1 from rfl]
  have eRV : parseFloatChars ['0', '.', '0', '0', '2'] = some (1/500 : ℚ) := by
    rw [@parseFloat_val ['0', '.', '0', '0', '2'] ['0'] ['0', '0', '2'] rfl rfl]
    norm_num [show digitsToNat ['0'] = 0 from rfl,
      show digitsToNat ['0', '0', '2'] = 2 from rfl]
  have hsearch : reSearch famM.toks c4Line.data = some
      [['0', '.', '0', '5'], ['0', '.', '0', '0', '0', '2'], ['0', '.', '0', '0', '0', '1'],
       ['1', '0', '0'], ['5', '0'], ['0'], ['1'], ['1'], ['0', '.', '0', '1'],
       ['0', '.', '0', '0', '2'], ['0', '.', '0', '5']] := rfl
  have hvals : famM.vals
      [['0', '.', '0', '5'], ['0', '.', '0', '0', '0', '2'], ['0', '.', '0', '0', '0', '1'],
       ['1', '0', '0'], ['5', '0'], ['0'], ['1'], ['1'], ['0', '.', '0', '1'],
       ['0', '.', '0', '0', '2'], ['0', '.', '0', '5']] =
      Except.ok [(20 : ℚ), 75/512, 5, 100, 50, 0, 1, 1, 10, 2, 50] := by
    simp only [famM, mcuFamilyW, eA, eT, eW, eR, eRT, eS, eSR, eRV, ofOptF, ofOptI,
      exceptBind_ok, exceptPure_eq]
    norm_num
  refine ⟨?_, ?_, ?_, ?_, ?_, ?_, ?_, ?_, ?_, ?_⟩
  · rw [timestamps_char, hfil]
    simp only [List.map_cons, List.map_nil]
    rw [@tsVal_eval c4Line ['1', '0', '.', '5'] [] rfl,
      @parseFloat_val ['1', '0', '.', '5'] ['1', '0'] ['5'] rfl rfl]
    norm_num [show digitsToNat ['1', '0'] = 10 from rfl, show digitsToNat ['5'] = 5 from rfl]
  · rw [series_famM "mcu_load" (by decide) [c4Line], hfil]
    simp only [List.map_cons, List.map_nil, famValue, hsearch, hvals]
    rfl
  · rw [series_famM "bandwidth" (by decide) [c4Line], hfil]
    simp only [List.map_cons, List.map_nil, famValue, hsearch, hvals]
    rfl
  · rw [series_famM "awake_time" (by decide) [c4Line], hfil]
    simp only [List.map_cons, List.map_nil, famValue, hsearch, hvals]
    rfl
  · rw [series_famM "mcu_srtt" (by decide) [c4Line], hfil]
    simp only [List.map_cons, List.map_nil, famValue, hsearch, hvals]
    rfl
  · rw [series_famM "mcu_rttvar" (by decide) [c4Line], hfil]
    simp only [List.map_cons, List.map_nil, famValue, hsearch, hvals]
    rfl
  · rw [series_famM "mcu_rto" (by decide) [c4Line], hfil]
    simp only [List.map_cons, List.map_nil, famValue, hsearch, hvals]
    rfl
  · rw [series_famM "mcu_bytes_write" (by decide) [c4Line], hfil]
    simp only [List.map_cons, List.map_nil, famValue, hsearch, hvals]
    rfl
  · rw [series_famM "mcu_bytes_read" (by decide) [c4Line], hfil]
    simp only [List.map_cons, List.map_nil, famValue, hsearch, hvals]
    rfl
  · rw [series_famM "mcu_bytes_retransmit" (by decide) [c4Line], hfil]
    simp only [List.map_cons, List.map_nil, famValue, hsearch, hvals]
    rfl

/-- C3 counterexample: the line `Stats x Stats 1.5: y` begins with
`Stats ` but not with `Stats <float>:` (the spec-side anchored
classification rejects it), yet the code's search-anywhere
classification treats it as a record line with timestamp 1.5. -/
theorem c3_counterexample :
    specIsRecordLine "Stats x Stats 1.5: y" = false ∧
    recordLineB "Stats x Stats 1.5: y" = true ∧
    tableTimestamps (parse_klippy_log ["Stats x Stats 1.5: y"]) = [3/2] := by
  refine ⟨by decide, by decide, ?_⟩
  have hfil : List.filter recordLineB ["Stats x Stats 1.5: y"] =
      ["Stats x Stats 1.5: y"] := rfl
  rw [timestamps_char, hfil]
  simp only [List.map_cons, List.map_nil]
  rw [@tsVal_eval "Stats x Stats 1.5: y" ['1', '.', '5'] [] rfl,
    @parseFloat_val ['1', '.', '5'] ['1'] ['5'] rfl rfl]
  norm_num [show digitsToNat ['1'] = 1 from rfl, show digitsToNat ['5'] = 5 from rfl]

/-- C3 (amended): line classification.  A line is treated as a record
line exactly when it is not whitespace-only, begins with `Stats `, and
contains anywhere in the line the token `Stats ` followed by a
floating-point number and a colon (the timestamp is taken from the first
such occurrence); a line that begins with `Stats <float>:` is always a
record line; blank lines and prefix-matching lines without a parseable
occurrence are silently skipped; classification never aborts the parse or
produces an error. -/
theorem c3_classification_amended :
    (∀ lines : List String, ∃ t, parse_klippy_log lines = Except.ok t) ∧
    (∀ lines : List String,
      tableTimestamps (parse_klippy_log lines) = (lines.filter recordLineB).map tsVal) ∧
    (∀ l : String, recordLineB l =
      (!(isBlank l) && startsStats l && (reSearch tsToks l.data).isSome)) ∧
    (∀ l : String, specIsRecordLine l = true → recordLineB l = true) := by
  refine ⟨fun lines => ⟨_, parse_ok lines⟩, timestamps_char, fun l => rfl, ?_⟩
  intro l hspec
  unfold specIsRecordLine at hspec
  split at hspec
  · rename_i r h1
    split at hspec
    · rename_i cap rest h2
      have hdata : l.data = "Stats ".data ++ r := (stripPre_eq_some _ _ _).mp h1
      have hmt : matchToks tsToks l.data = some [cap] := by
        have h1' : stripPre "Stats ".data l.data = some r := h1
        simp only [tsToks, matchToks, h1', h2, stripPre]
        simp
      have hnb : isBlank l = false := by
        have hd : l.data = 'S' :: ("tats ".data ++ r) := by rw [hdata]; rfl
        simp only [isBlank, hd, List.all_cons, show pyWs.contains 'S' = false from rfl,
          Bool.false_and]
      simp only [recordLineB, hnb, startsStats, h1, Option.isSome_some,
        reSearch_of_matchToks hmt, Bool.not_false, Bool.and_self]
    · simp at hspec
  · simp at hspec

/-- Witness for the amended C3 at a concrete anchored record line. -/
theorem c3_classification_amended_witness :
    specIsRecordLine "Stats 1.0: x" = true ∧ recordLineB "Stats 1.0: x" = true :=
  ⟨by decide, c3_classification_amended.2.2.2 "Stats 1.0: x" (by decide)⟩

/-- C2: Sentinel rule.  For the `i`-th record line, every key of every
extraction block receives exactly one value at index `i`: the block's
converted capture when its pattern matches the line, and the sentinel `0.0`
when it does not (independently of the other blocks). -/
theorem c2_sentinel_rule (fam : MetricFamily) (hfam : fam ∈ metricFamilies)
    (k : String) (hk : k ∈ fam.keys) (lines : List String) (i : ℕ) (r : String)
    (hr : (lines.filter recordLineB)[i]? = some r) :
    (tableSeries (parse_klippy_log lines) k)[i]? = some (famValue fam r.data k) ∧
    (reSearch fam.toks r.data = none → famValue fam r.data k = 0) ∧
    (∀ caps, reSearch fam.toks r.data = some caps →
      ∃ vs, fam.vals caps = Except.ok vs ∧
        famValue fam r.data k = (keyVal fam.keys vs k).getD 0) := by
  have hka : k ∈ all_metrics := famKeys_sub_all fam hfam k hk
  obtain ⟨pre, fam', post, hsplit, hk', hpre, hpost⟩ := keys_cover k hka
  have heq : fam = fam' := fam_unique hsplit hfam hk hpre hpost
  subst heq
  refine ⟨?_, ?_, ?_⟩
  · rw [series_char hsplit (famOk_all fam (fam_of_split hsplit)) hk' hka hpre hpost lines]
    rw [List.getElem?_map, hr]
    rfl
  · intro hnone
    simp [famValue, hnone]
  · intro caps hsome
    obtain ⟨s', hm⟩ := reSearch_matchToks _ _ _ hsome
    obtain ⟨vs, hvs, -, -⟩ := (famOk_all fam (fam_of_split hsplit)).2 s' caps hm
    refine ⟨vs, hvs, ?_⟩
    simp [famValue, hsome, hvs]

/-- Witness for C2: on a record line with no `sysload=` token, the
sysload block contributes its (sentinel) per-line value at index 0. -/
theorem c2_sentinel_rule_witness :
    famSL ∈ metricFamilies ∧ "sysload" ∈ famSL.keys ∧
    ((["Stats 1.5: x"].filter recordLineB)[0]? = some "Stats 1.5: x") ∧
    (tableSeries (parse_klippy_log ["Stats 1.5: x"]) "sysload")[0]? =
      some (famValue famSL "Stats 1.5: x".data "sysload") :=
  ⟨famSL_mem, by decide, by decide,
   (c2_sentinel_rule famSL famSL_mem "sysload" (by decide) ["Stats 1.5: x"] 0
     "Stats 1.5: x" (by decide)).1⟩

/-- C10 counterexample: on the record line
`Stats 1.0: sysload=-0.5 sysload=0.7` the metric `sysload` is reported
with a negative value, yet the pattern still matches the line (at the
second, unsigned occurrence) and `0.7` — not the sentinel — is appended. -/
theorem c10_counterexample :
    tableSeries (parse_klippy_log ["Stats 1.0: sysload=-0.5 sysload=0.7"]) "sysload" =
      [7/10] ∧
    tableSeries (parse_klippy_log ["Stats 1.0: sysload=-0.5 sysload=0.7"]) "sysload" ≠
      [0] := by
  have hfil : List.filter recordLineB ["Stats 1.0: sysload=-0.5 sysload=0.7"] =
      ["Stats 1.0: sysload=-0.5 sysload=0.7"] := rfl
  have hs : reSearch famSL.toks "Stats 1.0: sysload=-0.5 sysload=0.7".data =
      some [['0', '.', '7']] := rfl
  have e1 : parseFloatChars ['0', '.', '7'] = some (7/10 : ℚ) := by
    rw [@parseFloat_val ['0', '.', '7'] ['0'] ['7'] rfl rfl]
    norm_num [show digitsToNat ['0'] = 0 from rfl, show digitsToNat ['7'] = 7 from rfl]
  have hvals : famSL.vals [['0', '.', '7']] = Except.ok [(7/10 : ℚ)] := by
    simp only [famSL, scalarFamilyW, e1, ofOptF, exceptBind_ok, exceptPure_eq]
  have hser : tableSeries (parse_klippy_log ["Stats 1.0: sysload=-0.5 sysload=0.7"])
      "sysload" = [7/10] := by
    rw [series_famSL "sysload" (by decide) _, hfil]
    simp only [List.map_cons, List.map_nil, famValue, hs, hvals]
    rfl
  refine ⟨hser, ?_⟩
  rw [hser]
  intro hc
  simp only [List.cons.injEq, and_true] at hc
  norm_num at hc

/-- C10 (amended): every metric pattern matches only unsigned decimal
literals, so a negatively-reported value is never itself captured: every
value in every returned series is nonnegative, and on a record line where
the metric's only occurrence is negative (the claim's examples) the
pattern fails to match and the sentinel 0.0 (for the heater family, the
whole family's sentinels) is appended instead. -/
theorem c10_unsigned_amended :
    (∀ (lines : List String) (k : String) (i : ℕ) (q : ℚ),
      (tableSeries (parse_klippy_log lines) k)[i]? = some q → 0 ≤ q) ∧
    tableSeries (parse_klippy_log ["Stats 1.0: sysload=-0.5"]) "sysload" = [0] ∧
    tableSeries (parse_klippy_log ["Stats 1.0: heater_bed: target=60.0 temp=-10.0 pwm=0.5"])
      "heater_bed_target" = [0] ∧
    tableSeries (parse_klippy_log ["Stats 1.0: heater_bed: target=60.0 temp=-10.0 pwm=0.5"])
      "heater_bed_temp" = [0] ∧
    tableSeries (parse_klippy_log ["Stats 1.0: heater_bed: target=60.0 temp=-10.0 pwm=0.5"])
      "heater_bed_pwm" = [0] := by
  refine ⟨?_, ?_, ?_, ?_, ?_⟩
  · intro lines k i q h
    by_cases hka : k ∈ all_metrics
    · obtain ⟨fam, hfm, -, hchar⟩ := series_char_all hka lines
      rw [hchar] at h
      have hqmem := List.getElem?_mem h
      obtain ⟨l, -, hval⟩ := List.mem_map.mp hqmem
      rw [← hval]
      exact famValue_nonneg (famOk_all fam hfm) _ _
    · rw [parse_ok, tableSeries_ok, finalize_series_unreg hka] at h
      simp at h
  · rw [series_famSL "sysload" (by decide) _,
      show List.filter recordLineB ["Stats 1.0: sysload=-0.5"] =
        ["Stats 1.0: sysload=-0.5"] from rfl]
    simp only [List.map_cons, List.map_nil, famValue,
      show reSearch famSL.toks "Stats 1.0: sysload=-0.5".data = none from rfl]
  · rw [series_famHB "heater_bed_target" (by decide) _,
      show List.filter recordLineB
        ["Stats 1.0: heater_bed: target=60.0 temp=-10.0 pwm=0.5"] =
        ["Stats 1.0: heater_bed: target=60.0 temp=-10.0 pwm=0.5"] from rfl]
    simp only [List.map_cons, List.map_nil, famValue,
      show reSearch famHB.toks
        "Stats 1.0: heater_bed: target=60.0 temp=-10.0 pwm=0.5".data = none from rfl]
  · rw [series_famHB "heater_bed_temp" (by decide) _,
      show List.filter recordLineB
        ["Stats 1.0: heater_bed: target=60.0 temp=-10.0 pwm=0.5"] =
        ["Stats 1.0: heater_bed: target=60.0 temp=-10.0 pwm=0.5"] from rfl]
    simp only [List.map_cons, List.map_nil, famValue,
      show reSearch famHB.toks
        "Stats 1.0: heater_bed: target=60.0 temp=-10.0 pwm=0.5".data = none from rfl]
  · rw [series_famHB "heater_bed_pwm" (by decide) _,
      show List.filter recordLineB
        ["Stats 1.0: heater_bed: target=60.0 temp=-10.0 pwm=0.5"] =
        ["Stats 1.0: heater_bed: target=60.0 temp=-10.0 pwm=0.5"] from rfl]
    simp only [List.map_cons, List.map_nil, famValue,
      show reSearch famHB.toks
        "Stats 1.0: heater_bed: target=60.0 temp=-10.0 pwm=0.5".data = none from rfl]

/-- Witness for the amended C10 at a concrete sentinel entry. -/
theorem c10_unsigned_amended_witness :
    (tableSeries (parse_klippy_log ["Stats 1.0: sysload=-0.5"]) "sysload")[0]? = some 0 ∧
    (0 : ℚ) ≤ 0 :=
  ⟨by rw [c10_unsigned_amended.2.1]; rfl,
   c10_unsigned_amended.1 ["Stats 1.0: sysload=-0.5"] "sysload" 0 0
     (by rw [c10_unsigned_amended.2.1]; rfl)⟩

/-- C6 counterexample: on a (hypothetically ragged) state with two
timestamps and every metric list empty, the minimum length across all
sequences is 0, yet the closing step keeps the timestamp sequence at
length 2 and pads the metric lists with sentinels up to length 2 — it
neither computes that minimum nor ever truncates the timestamps. -/
theorem c6_counterexample :
    specMinLen ⟨[(1 : ℚ), 2], fun _ => []⟩ = 0 ∧
    (finalize ⟨[(1 : ℚ), 2], fun _ => []⟩).timestamps.length = 2 ∧
    (finalize ⟨[(1 : ℚ), 2], fun _ => []⟩).series "mcu_load" = [0, 0] ∧
    (finalize ⟨[(1 : ℚ), 2], fun _ => []⟩).timestamps.length ≠
      specMinLen ⟨[(1 : ℚ), 2], fun _ => []⟩ := by
  refine ⟨by decide, rfl, ?_, by decide⟩
  rfl

/-- C6 (amended): defensive closing step.  Before returning, if at least
one timestamp was recorded each metric sequence is padded with the
sentinel `0.0` while shorter than the timestamp sequence and truncated to
the timestamp count; if no timestamp was recorded every metric sequence is
returned empty.  The timestamp sequence itself is never altered, and every
returned sequence has length equal to the timestamp count (not the minimum
across sequences). -/
theorem c6_finalize_amended (st : St) (k : String) (hk : k ∈ all_metrics) :
    (finalize st).timestamps = st.ts ∧
    (finalize st).series k =
      (if st.ts = [] then []
       else (st.m k ++ List.replicate (st.ts.length - (st.m k).length) 0).take
         st.ts.length) ∧
    ((finalize st).series k).length = (finalize st).timestamps.length := by
  refine ⟨finalize_ts st, ?_, ?_⟩
  · unfold finalize
    by_cases he : st.ts.isEmpty
    · rw [if_pos he, if_pos (List.isEmpty_iff.mp he)]
    · rw [if_neg he, if_neg (fun h => he (List.isEmpty_iff.mpr h))]
      simp only [hk, if_true]
  · rw [finalize_ts]
    unfold finalize
    by_cases he : st.ts.isEmpty
    · rw [if_pos he]
      simp [List.isEmpty_iff.mp he]
    · rw [if_neg he]
      simp only [hk, if_true]
      rw [List.length_take, List.length_append, List.length_replicate]
      omega

/-- Witness for the amended C6 at the ragged state of the counterexample
and the key `mcu_load`. -/
theorem c6_finalize_amended_witness :
    "mcu_load" ∈ all_metrics ∧
    ((finalize ⟨[(1 : ℚ), 2], fun _ => []⟩).timestamps =
        (⟨[(1 : ℚ), 2], fun _ => []⟩ : St).ts ∧
      (finalize ⟨[(1 : ℚ), 2], fun _ => []⟩).series "mcu_load" =
        (if (⟨[(1 : ℚ), 2], fun _ => []⟩ : St).ts = [] then []
         else ((⟨[(1 : ℚ), 2], fun _ => []⟩ : St).m "mcu_load" ++
             List.replicate
               ((⟨[(1 : ℚ), 2], fun _ => []⟩ : St).ts.length -
                 ((⟨[(1 : ℚ), 2], fun _ => []⟩ : St).m "mcu_load").length) 0).take
           (⟨[(1 : ℚ), 2], fun _ => []⟩ : St).ts.length) ∧
      ((finalize ⟨[(1 : ℚ), 2], fun _ => []⟩).series "mcu_load").length =
        (finalize ⟨[(1 : ℚ), 2], fun _ => []⟩).timestamps.length) :=
  ⟨by decide, c6_finalize_amended ⟨[(1 : ℚ), 2], fun _ => []⟩ "mcu_load" (by decide)⟩

/-- C7: Fatal abort atomicity.  The numeric conversion applied to
pattern-guaranteed captures is the parse's only extraction-time failure
source; here the parse is considered with an arbitrary conversion
function, modelling the spec's "possible defect".  If, with the parse
state `st` reached after the lines `pre`, converting a capture of the
line `l` fails (the loop step raises), then the entire parse of
`pre ++ l :: post` aborts with that one error: the remaining lines are
never processed, the caller receives exactly the one error description,
and no table is delivered alongside or after it.  (With the real
converters `parseFloatChars`/`parseIntChars` this condition is
unreachable, as `parse_ok` shows; the theorem verifies the propagation
mechanism of `LogParser.run`.) -/
theorem c7_fatal_abort (fp fi : List Char → Option ℚ) (pre : List String) (l : String)
    (post : List String) (st : St) (e : String)
    (hpre : pre.foldlM (stepW fp fi) initSt = Except.ok st)
    (hstep : stepW fp fi st l = Except.error e) :
    parse_klippy_logW fp fi (pre ++ l :: post) = Except.error e ∧
    runThreadW fp fi (pre ++ l :: post) = Emitted.errorOccurred e ∧
    ∀ t, runThreadW fp fi (pre ++ l :: post) ≠ Emitted.dataReady t := by
  have hfold : (pre ++ l :: post).foldlM (stepW fp fi) initSt = Except.error e := by
    rw [List.foldlM_append, hpre, exceptBind_ok, List.foldlM_cons, hstep]
    rfl
  have hparse : parse_klippy_logW fp fi (pre ++ l :: post) = Except.error e := by
    unfold parse_klippy_logW
    rw [hfold]
    rfl
  have h2 : runThreadW fp fi (pre ++ l :: post) = Emitted.errorOccurred e := by
    unfold runThreadW
    rw [hparse]
  refine ⟨hparse, h2, fun t ht => ?_⟩
  rw [h2] at ht
  exact Emitted.noConfusion ht

/-- Witness for C7: a conversion function that fails on every capture but
the timestamp makes the extraction of a `sysload` record line abort the
whole parse with a single error. -/
theorem c7_fatal_abort_witness :
    (([] : List String).foldlM
        (stepW (fun c => if c = ['1', '0', '.', '5'] then some (21/2) else none)
          parseIntChars) initSt = Except.ok initSt) ∧
    (stepW (fun c => if c = ['1', '0', '.', '5'] then some (21/2) else none)
        parseIntChars initSt "Stats 10.5: sysload=0.75" =
      Except.error "could not convert string to float") ∧
    parse_klippy_logW (fun c => if c = ['1', '0', '.', '5'] then some (21/2) else none)
        parseIntChars ([] ++ "Stats 10.5: sysload=0.75" :: []) =
      Except.error "could not convert string to float" :=
  ⟨rfl, rfl,
   (c7_fatal_abort (fun c => if c = ['1', '0', '.', '5'] then some (21/2) else none)
     parseIntChars [] "Stats 10.5: sysload=0.75" [] initSt
     "could not convert string to float" rfl rfl).1⟩

/-- C5 counterexample: on a record line where the `toolhead0` section
omits its byte counters, the non-greedy gaps of the `toolhead0` pattern
extend into the `toolhead1` section: `bytes_write=7`, reported only in
instance 1's section (the second half of the line, where the only
`bytes_write=` occurrence lies), is appended to `toolhead0_bytes_write`. -/
theorem c5_counterexample :
    tableSeries
      (parse_klippy_log
        [("Stats 1.0: toolhead0: mcu_awake=0.01 mcu_task_avg=0.0001 " ++
          "toolhead1: mcu_awake=0.02 mcu_task_avg=0.0002 bytes_write=7 bytes_read=8 freq=5000000")])
      "toolhead0_bytes_write" = [7] ∧
    reSearch [Tok.lit "bytes_write=".data]
      "Stats 1.0: toolhead0: mcu_awake=0.01 mcu_task_avg=0.0001 ".data = none ∧
    reSearch [Tok.lit "bytes_write=".data]
      "toolhead1: mcu_awake=0.02 mcu_task_avg=0.0002 bytes_write=7 bytes_read=8 freq=5000000".data =
      some [] := by
  refine ⟨?_, rfl, rfl⟩
  have hfil : List.filter recordLineB
      [("Stats 1.0: toolhead0: mcu_awake=0.01 mcu_task_avg=0.0001 " ++
        "toolhead1: mcu_awake=0.02 mcu_task_avg=0.0002 bytes_write=7 bytes_read=8 freq=5000000")] =
      [("Stats 1.0: toolhead0: mcu_awake=0.01 mcu_task_avg=0.0001 " ++
        "toolhead1: mcu_awake=0.02 mcu_task_avg=0.0002 bytes_write=7 bytes_read=8 freq=5000000")] := rfl
  have hsearch : reSearch famT0.toks
      ("Stats 1.0: toolhead0: mcu_awake=0.01 mcu_task_avg=0.0001 " ++
        "toolhead1: mcu_awake=0.02 mcu_task_avg=0.0002 bytes_write=7 bytes_read=8 freq=5000000").data =
      some [['0', '.', '0', '1'], ['0', '.', '0', '0', '0', '1'], ['7'], ['8'],
        ['5', '0', '0', '0', '0', '0', '0']] := rfl
  have eA : parseFloatChars ['0', '.', '0', '1'] = some (1/100 : ℚ) := by
    rw [@parseFloat_val ['0', '.', '0', '1'] ['0'] ['0', '1'] rfl rfl]
    norm_num [show digitsToNat ['0'] = 0 from rfl, show digitsToNat ['0', '1'] = 1 from rfl]
  have eT : parseFloatChars ['0', '.', '0', '0', '0', '1'] = some (1/10000 : ℚ) := by
    rw [@parseFloat_val ['0', '.', '0', '0', '0', '1'] ['0'] ['0', '0', '0', '1'] rfl rfl]
    norm_num [show digitsToNat ['0'] = 0 from rfl,
      show digitsToNat ['0', '0', '0', '1'] = 1 from rfl]
  have e7 : parseIntChars ['7'] = some (7 : ℚ) := by
    rw [@parseInt_val ['7'] ['7'] rfl]
    norm_num [show digitsToNat ['7'] = 7 from rfl]
  have e8 : parseIntChars ['8'] = some (8 : ℚ) := by
    rw [@parseInt_val ['8'] ['8'] rfl]
    norm_num [show digitsToNat ['8'] = 8 from rfl]
  have eF : parseIntChars ['5', '0', '0', '0', '0', '0', '0'] = some (5000000 : ℚ) := by
    rw [@parseInt_val ['5', '0', '0', '0', '0', '0', '0'] ['5', '0', '0', '0', '0', '0', '0'] rfl]
    norm_num [show digitsToNat ['5', '0', '0', '0', '0', '0', '0'] = 5000000 from rfl]
  have hvals : famT0.vals
      [['0', '.', '0', '1'], ['0', '.', '0', '0', '0', '1'], ['7'], ['8'],
        ['5', '0', '0', '0', '0', '0', '0']] =
      Except.ok [(10 : ℚ), 15/1024, 1, 7, 8, 5] := by
    simp only [famT0, toolheadFamilyW, eA, eT, e7, e8, eF, ofOptF, ofOptI,
      exceptBind_ok, exceptPure_eq]
    norm_num
  rw [series_famT0 "toolhead0_bytes_write" (by decide) _, hfil]
  simp only [List.map_cons, List.map_nil, famValue, hsearch, hvals]
  rfl

/-- The dual-section toolhead line with both sections complete. -/
def c5DualLine : String :=
  "Stats 2.0: toolhead0: mcu_awake=0.01 mcu_task_avg=0.0001 bytes_write=11 bytes_read=12 freq=64000000 toolhead1: mcu_awake=0.03 mcu_task_avg=0.0003 bytes_write=21 bytes_read=22 freq=72000000"

theorem stripPre_append : ∀ (l r : List Char), stripPre l (l ++ r) = some r := by
  intro l r
  induction l with
  | nil => rfl
  | cons c l ih => simp [stripPre, ih]

theorem matchToks_lit_some {l cs r : List Char} {ts : List Tok}
    (h : stripPre l cs = some r) :
    matchToks (Tok.lit l :: ts) cs = matchToks ts r := by
  simp only [matchToks, h]

theorem matchToks_lit_none {l cs : List Char} {ts : List Tok}
    (h : stripPre l cs = none) :
    matchToks (Tok.lit l :: ts) cs = none := by
  simp only [matchToks, h]

theorem matchToks_capF_some {cs cap r : List Char} {ts : List Tok}
    {caps : List (List Char)} (h1 : scanFloat cs = some (cap, r))
    (h2 : matchToks ts r = some caps) :
    matchToks (Tok.capF :: ts) cs = some (cap :: caps) := by
  simp only [matchToks, h1, h2]

theorem matchToks_capI_some {cs cap r : List Char} {ts : List Tok}
    {caps : List (List Char)} (h1 : scanDigits cs = some (cap, r))
    (h2 : matchToks ts r = some caps) :
    matchToks (Tok.capI :: ts) cs = some (cap :: caps) := by
  simp only [matchToks, h1, h2]

theorem matchToks_gap_eq (ts : List Tok) (cs : List Char) :
    matchToks (Tok.gap :: ts) cs = gapRun (fun r => matchToks ts r) cs := rfl

theorem gapRun_hit {f : List Char → Option (List (List Char))} {cs : List Char}
    {caps : List (List Char)} (h : f cs = some caps) : gapRun f cs = some caps := by
  cases cs with
  | nil => rw [gapRun]; exact h
  | cons c cs => rw [gapRun, h]

theorem gapRun_cons_none {f : List Char → Option (List (List Char))} {c : Char}
    {cs : List Char} (h : f (c :: cs) = none) (hc : ¬c = '\n') :
    gapRun f (c :: cs) = gapRun f cs := by
  rw [gapRun, h]
  simp [hc]

theorem reSearch_cons_none {ts : List Tok} {c : Char} {cs : List Char}
    (h : matchToks ts (c :: cs) = none) :
    reSearch ts (c :: cs) = reSearch ts cs := by
  rw [reSearch, h]

/-- `litFailsAt l p` holds when matching the literal `l` against the text
`p` hits a character mismatch strictly within `p`, so that the literal can
never match there whatever follows `p`. -/
def litFailsAt : List Char → List Char → Bool
  | [], _ => false
  | _ :: _, [] => false
  | a :: l, c :: cs => if a = c then litFailsAt l cs else true

theorem stripPre_none_of_litFailsAt : ∀ {l p : List Char}, litFailsAt l p = true →
    ∀ (tail : List Char), stripPre l (p ++ tail) = none := by
  intro l
  induction l with
  | nil => intro p h; simp [litFailsAt] at h
  | cons a l ih =>
    intro p h tail
    cases p with
    | nil => simp [litFailsAt] at h
    | cons c cs =>
      simp only [litFailsAt] at h
      by_cases hac : a = c
      · rw [if_pos hac] at h
        simp only [List.cons_append, stripPre, if_pos hac]
        exact ih h tail
      · simp only [List.cons_append, stripPre, if_neg hac]

/-- Every start position inside `p` is a definite mismatch for the
literal `l`. -/
def allPosFail (l : List Char) : List Char → Bool
  | [] => true
  | c :: cs => litFailsAt l (c :: cs) && allPosFail l cs

theorem reSearch_skip_chunk {l : List Char} {ts : List Tok} :
    ∀ {p : List Char}, allPosFail l p = true → ∀ (tail : List Char),
    reSearch (Tok.lit l :: ts) (p ++ tail) = reSearch (Tok.lit l :: ts) tail := by
  intro p
  induction p with
  | nil => intro _ tail; rfl
  | cons c cs ih =>
    intro h tail
    simp only [allPosFail, Bool.and_eq_true] at h
    rw [List.cons_append]
    rw [reSearch_cons_none (matchToks_lit_none
      (by rw [show (cs ++ tail : List Char) = cs ++ tail from rfl] at *
          exact (List.cons_append c cs tail) ▸ stripPre_none_of_litFailsAt h.1 tail))]
    exact ih h.2 tail

theorem reSearch_skip_digits {a : Char} {l : List Char} {ts : List Tok}
    (ha : a.isDigit = false) : ∀ {d : List Char}, (∀ c ∈ d, c.isDigit = true) →
    ∀ (cs : List Char),
    reSearch (Tok.lit (a :: l) :: ts) (d ++ cs) = reSearch (Tok.lit (a :: l) :: ts) cs := by
  intro d
  induction d with
  | nil => intro _ cs; rfl
  | cons c d ih =>
    intro hd cs
    have hac : ¬a = c := by
      intro he
      rw [he] at ha
      rw [hd c (by simp)] at ha
      simp at ha
    rw [List.cons_append]
    rw [reSearch_cons_none (matchToks_lit_none (by simp only [stripPre, if_neg hac]))]
    exact ih (fun x hx => hd x (List.mem_cons_of_mem c hx)) cs

theorem scanDigits_full {d : List Char} (hd : DigitRun d) :
    scanDigits d = some (d, []) := by
  have := @scanDigits_append d [] hd (by simp [HeadND])
  simpa using this

theorem scanFloat_append {a b r : List Char} (ha : DigitRun a) (hb : DigitRun b)
    (hr : HeadND r) : scanFloat (a ++ '.' :: (b ++ r)) = some (a ++ '.' :: b, r) := by
  simp only [scanFloat, @scanDigits_append a ('.' :: (b ++ r)) ha (by simp [HeadND]),
    scanDigits_append hb hr]

/-- The toolhead pattern tokens after the section header literal. -/
def thRest : List Tok :=
  [Tok.capF, Tok.lit " mcu_task_avg=".data, Tok.capF,
   Tok.gap, Tok.lit "bytes_write=".data, Tok.capI,
   Tok.lit " bytes_read=".data, Tok.capI,
   Tok.gap, Tok.lit "freq=".data, Tok.capI]

theorem toolheadToks_eq (n : ℕ) : toolheadToks n =
    Tok.lit ("toolhead" ++ toString n ++ ": mcu_awake=").data :: thRest := rfl

/-- Body of a complete toolhead section after its header: awake float,
task-average float, byte counters and frequency, followed by `tail`. -/
def secBody (a b g h w r f tail : List Char) : List Char :=
  a ++ '.' :: (b ++ (" mcu_task_avg=".data ++ (g ++ '.' :: (h ++
    (" bytes_write=".data ++ (w ++ (" bytes_read=".data ++ (r ++
      (" freq=".data ++ (f ++ tail))))))))))

/-- A complete toolhead section: header plus body. -/
def secText (n : ℕ) (a b g h w r f tail : List Char) : List Char :=
  ("toolhead" ++ toString n ++ ": mcu_awake=").data ++ secBody a b g h w r f tail

/-- A record line carrying two complete toolhead sections with arbitrary
digit-string field values. -/
def dualLine (a0 b0 g0 h0 w0 r0 f0 a1 b1 g1 h1 w1 r1 f1 : List Char) : List Char :=
  "Stats ".data ++ ('2' :: '.' :: '0' :: ':' :: ' ' ::
    secText 0 a0 b0 g0 h0 w0 r0 f0 (' ' :: secText 1 a1 b1 g1 h1 w1 r1 f1 []))

/-- Exact decimal value of an `a.b` float capture. -/
def floatVal (a b : List Char) : ℚ :=
  (digitsToNat a : ℚ) + (digitsToNat b : ℚ) / 10 ^ b.length

theorem sectionMatch {a b g h w r f tail : List Char}
    (ha : DigitRun a) (hb : DigitRun b) (hg : DigitRun g) (hh : DigitRun h)
    (hw : DigitRun w) (hr : DigitRun r) (hf : DigitRun f) (htail : HeadND tail) :
    matchToks thRest (secBody a b g h w r f tail) =
      some [a ++ '.' :: b, g ++ '.' :: h, w, r, f] := by
  have m9 : matchToks [Tok.capI] (f ++ tail) = some [f] :=
    matchToks_capI_some (scanDigits_append hf htail) rfl
  have m8 : matchToks [Tok.lit "freq=".data, Tok.capI]
      ("freq=".data ++ (f ++ tail)) = some [f] := by
    rw [matchToks_lit_some (stripPre_append _ _)]
    exact m9
  have m7 : matchToks [Tok.gap, Tok.lit "freq=".data, Tok.capI]
      (" freq=".data ++ (f ++ tail)) = some [f] := by
    rw [matchToks_gap_eq]
    rw [show (" freq=".data ++ (f ++ tail) : List Char) =
      ' ' :: ("freq=".data ++ (f ++ tail)) from rfl]
    rw [gapRun_cons_none (matchToks_lit_none
      (show stripPre "freq=".data (' ' :: ("freq=".data ++ (f ++ tail))) = none from rfl))
      (by decide)]
    exact gapRun_hit m8
  have m6 : matchToks [Tok.capI, Tok.gap, Tok.lit "freq=".data, Tok.capI]
      (r ++ (" freq=".data ++ (f ++ tail))) = some [r, f] :=
    matchToks_capI_some (scanDigits_append hr (by exact rfl)) m7
  have m5 : matchToks [Tok.lit " bytes_read=".data, Tok.capI, Tok.gap,
      Tok.lit "freq=".data, Tok.capI]
      (" bytes_read=".data ++ (r ++ (" freq=".data ++ (f ++ tail)))) = some [r, f] := by
    rw [matchToks_lit_some (stripPre_append _ _)]
    exact m6
  have m4 : matchToks [Tok.capI, Tok.lit " bytes_read=".data, Tok.capI, Tok.gap,
      Tok.lit "freq=".data, Tok.capI]
      (w ++ (" bytes_read=".data ++ (r ++ (" freq=".data ++ (f ++ tail))))) =
      some [w, r, f] :=
    matchToks_capI_some (scanDigits_append hw (by exact rfl)) m5
  have m3 : matchToks [Tok.lit "bytes_write=".data, Tok.capI, Tok.lit " bytes_read=".data,
      Tok.capI, Tok.gap, Tok.lit "freq=".data, Tok.capI]
      ("bytes_write=".data ++ (w ++ (" bytes_read=".data ++ (r ++
        (" freq=".data ++ (f ++ tail)))))) = some [w, r, f] := by
    rw [matchToks_lit_some (stripPre_append _ _)]
    exact m4
  have m2 : matchToks [Tok.gap, Tok.lit "bytes_write=".data, Tok.capI,
      Tok.lit " bytes_read=".data, Tok.capI, Tok.gap, Tok.lit "freq=".data, Tok.capI]
      (" bytes_write=".data ++ (w ++ (" bytes_read=".data ++ (r ++
        (" freq=".data ++ (f ++ tail)))))) = some [w, r, f] := by
    rw [matchToks_gap_eq]
    rw [show (" bytes_write=".data ++ (w ++ (" bytes_read=".data ++ (r ++
      (" freq=".data ++ (f ++ tail))))) : List Char) =
      ' ' :: ("bytes_write=".data ++ (w ++ (" bytes_read=".data ++ (r ++
        (" freq=".data ++ (f ++ tail)))))) from rfl]
    rw [gapRun_cons_none (matchToks_lit_none
      (show stripPre "bytes_write=".data
        (' ' :: ("bytes_write=".data ++ (w ++ (" bytes_read=".data ++ (r ++
          (" freq=".data ++ (f ++ tail))))))) = none from rfl))
      (by decide)]
    exact gapRun_hit m3
  have m1 : matchToks [Tok.capF, Tok.gap, Tok.lit "bytes_write=".data, Tok.capI,
      Tok.lit " bytes_read=".data, Tok.capI, Tok.gap, Tok.lit "freq=".data, Tok.capI]
      (g ++ '.' :: (h ++ (" bytes_write=".data ++ (w ++ (" bytes_read=".data ++ (r ++
        (" freq=".data ++ (f ++ tail)))))))) = some [g ++ '.' :: h, w, r, f] :=
    matchToks_capF_some (scanFloat_append hg hh (by exact rfl)) m2
  have m0 : matchToks [Tok.lit " mcu_task_avg=".data, Tok.capF, Tok.gap,
      Tok.lit "bytes_write=".data, Tok.capI, Tok.lit " bytes_read=".data, Tok.capI,
      Tok.gap, Tok.lit "freq=".data, Tok.capI]
      (" mcu_task_avg=".data ++ (g ++ '.' :: (h ++ (" bytes_write=".data ++ (w ++
        (" bytes_read=".data ++ (r ++ (" freq=".data ++ (f ++ tail))))))))) =
      some [g ++ '.' :: h, w, r, f] := by
    rw [matchToks_lit_some (stripPre_append _ _)]
    exact m1
  show matchToks (Tok.capF :: _) (secBody a b g h w r f tail) = _
  unfold secBody
  exact matchToks_capF_some (scanFloat_append ha hb (by exact rfl)) m0

theorem reSearch_skip_one {l0 : Char} {l : List Char} {ts : List Tok} (c : Char)
    (hne : ¬l0 = c) (cs : List Char) :
    reSearch (Tok.lit (l0 :: l) :: ts) (c :: cs) = reSearch (Tok.lit (l0 :: l) :: ts) cs :=
  reSearch_cons_none (matchToks_lit_none (by simp [stripPre, hne]))

theorem dualSearch0 {a0 b0 g0 h0 w0 r0 f0 a1 b1 g1 h1 w1 r1 f1 : List Char}
    (ha0 : DigitRun a0) (hb0 : DigitRun b0) (hg0 : DigitRun g0) (hh0 : DigitRun h0)
    (hw0 : DigitRun w0) (hr0 : DigitRun r0) (hf0 : DigitRun f0) :
    reSearch (toolheadToks 0) (dualLine a0 b0 g0 h0 w0 r0 f0 a1 b1 g1 h1 w1 r1 f1) =
      some [a0 ++ '.' :: b0, g0 ++ '.' :: h0, w0, r0, f0] := by
  rw [toolheadToks_eq 0]
  rw [show ("toolhead" ++ toString 0 ++ ": mcu_awake=").data =
    't' :: "oolhead0: mcu_awake=".data from rfl]
  unfold dualLine
  rw [@reSearch_skip_chunk ('t' :: "oolhead0: mcu_awake=".data) thRest "Stats ".data
    (by decide)]
  rw [show ('2' :: '.' :: '0' :: ':' :: ' ' ::
      secText 0 a0 b0 g0 h0 w0 r0 f0 (' ' :: secText 1 a1 b1 g1 h1 w1 r1 f1 []) :
      List Char) =
    ['2', '.', '0', ':', ' '] ++
      secText 0 a0 b0 g0 h0 w0 r0 f0 (' ' :: secText 1 a1 b1 g1 h1 w1 r1 f1 []) from rfl]
  rw [@reSearch_skip_chunk ('t' :: "oolhead0: mcu_awake=".data) thRest
    ['2', '.', '0', ':', ' '] (by decide)]
  rw [show secText 0 a0 b0 g0 h0 w0 r0 f0 (' ' :: secText 1 a1 b1 g1 h1 w1 r1 f1 []) =
    ('t' :: "oolhead0: mcu_awake=".data) ++
      secBody a0 b0 g0 h0 w0 r0 f0 (' ' :: secText 1 a1 b1 g1 h1 w1 r1 f1 []) from rfl]
  exact reSearch_of_matchToks (by
    rw [matchToks_lit_some (stripPre_append _ _)]
    exact sectionMatch ha0 hb0 hg0 hh0 hw0 hr0 hf0 (by exact rfl))

theorem dualSearch1 {a0 b0 g0 h0 w0 r0 f0 a1 b1 g1 h1 w1 r1 f1 : List Char}
    (ha0 : DigitRun a0) (hb0 : DigitRun b0) (hg0 : DigitRun g0) (hh0 : DigitRun h0)
    (hw0 : DigitRun w0) (hr0 : DigitRun r0) (hf0 : DigitRun f0)
    (ha1 : DigitRun a1) (hb1 : DigitRun b1) (hg1 : DigitRun g1) (hh1 : DigitRun h1)
    (hw1 : DigitRun w1) (hr1 : DigitRun r1) (hf1 : DigitRun f1) :
    reSearch (toolheadToks 1) (dualLine a0 b0 g0 h0 w0 r0 f0 a1 b1 g1 h1 w1 r1 f1) =
      some [a1 ++ '.' :: b1, g1 ++ '.' :: h1, w1, r1, f1] := by
  rw [toolheadToks_eq 1]
  rw [show ("toolhead" ++ toString 1 ++ ": mcu_awake=").data =
    't' :: "oolhead1: mcu_awake=".data from rfl]
  unfold dualLine
  rw [@reSearch_skip_chunk ('t' :: "oolhead1: mcu_awake=".data) thRest "Stats ".data
    (by decide)]
  rw [show ('2' :: '.' :: '0' :: ':' :: ' ' ::
      secText 0 a0 b0 g0 h0 w0 r0 f0 (' ' :: secText 1 a1 b1 g1 h1 w1 r1 f1 []) :
      List Char) =
    ['2', '.', '0', ':', ' '] ++
      secText 0 a0 b0 g0 h0 w0 r0 f0 (' ' :: secText 1 a1 b1 g1 h1 w1 r1 f1 []) from rfl]
  rw [@reSearch_skip_chunk ('t' :: "oolhead1: mcu_awake=".data) thRest
    ['2', '.', '0', ':', ' '] (by decide)]
  rw [show secText 0 a0 b0 g0 h0 w0 r0 f0 (' ' :: secText 1 a1 b1 g1 h1 w1 r1 f1 []) =
    ('t' :: "oolhead0: mcu_awake=".data) ++
      secBody a0 b0 g0 h0 w0 r0 f0 (' ' :: secText 1 a1 b1 g1 h1 w1 r1 f1 []) from rfl]
  rw [@reSearch_skip_chunk ('t' :: "oolhead1: mcu_awake=".data) thRest
    ('t' :: "oolhead0: mcu_awake=".data) (by decide)]
  unfold secBody
  rw [reSearch_skip_digits (show ('t' : Char).isDigit = false from rfl) ha0.2]
  rw [reSearch_skip_one '.' (by decide)]
  rw [reSearch_skip_digits (show ('t' : Char).isDigit = false from rfl) hb0.2]
  rw [@reSearch_skip_chunk ('t' :: "oolhead1: mcu_awake=".data) thRest
    " mcu_task_avg=".data (by decide)]
  rw [reSearch_skip_digits (show ('t' : Char).isDigit = false from rfl) hg0.2]
  rw [reSearch_skip_one '.' (by decide)]
  rw [reSearch_skip_digits (show ('t' : Char).isDigit = false from rfl) hh0.2]
  rw [@reSearch_skip_chunk ('t' :: "oolhead1: mcu_awake=".data) thRest
    " bytes_write=".data (by decide)]
  rw [reSearch_skip_digits (show ('t' : Char).isDigit = false from rfl) hw0.2]
  rw [@reSearch_skip_chunk ('t' :: "oolhead1: mcu_awake=".data) thRest
    " bytes_read=".data (by decide)]
  rw [reSearch_skip_digits (show ('t' : Char).isDigit = false from rfl) hr0.2]
  rw [@reSearch_skip_chunk ('t' :: "oolhead1: mcu_awake=".data) thRest
    " freq=".data (by decide)]
  rw [reSearch_skip_digits (show ('t' : Char).isDigit = false from rfl) hf0.2]
  rw [reSearch_skip_one ' ' (by decide)]
  rw [show secText 1 a1 b1 g1 h1 w1 r1 f1 [] =
    ('t' :: "oolhead1: mcu_awake=".data) ++ secBody a1 b1 g1 h1 w1 r1 f1 [] from rfl]
  exact reSearch_of_matchToks (by
    rw [matchToks_lit_some (stripPre_append _ _)]
    exact sectionMatch ha1 hb1 hg1 hh1 hw1 hr1 hf1 trivial)

theorem parseFloat_run {a b : List Char} (ha : DigitRun a) (hb : DigitRun b) :
    parseFloatChars (a ++ '.' :: b) = some (floatVal a b) := by
  rw [parseFloat_val (scanDigits_append ha (by exact rfl)) (scanDigits_full hb)]
  rfl

theorem parseInt_run {d : List Char} (hd : DigitRun d) :
    parseIntChars d = some (digitsToNat d : ℚ) :=
  parseInt_val (scanDigits_full hd)

theorem toolheadVals {a b g h w r f : List Char} (ha : DigitRun a) (hb : DigitRun b)
    (hg : DigitRun g) (hh : DigitRun h) (hw : DigitRun w) (hr : DigitRun r)
    (hf : DigitRun f) (n : ℕ) :
    (toolheadFamilyW parseFloatChars parseIntChars n).vals
        [a ++ '.' :: b, g ++ '.' :: h, w, r, f] =
      Except.ok [floatVal g h * 100000,
        ((digitsToNat w : ℚ) + (digitsToNat r : ℚ)) / 1024,
        floatVal a b * 100, (digitsToNat w : ℚ), (digitsToNat r : ℚ),
        (digitsToNat f : ℚ) / 1000000] := by
  simp only [toolheadFamilyW, parseFloat_run ha hb, parseFloat_run hg hh,
    parseInt_run hw, parseInt_run hr, parseInt_run hf, ofOptF, ofOptI,
    exceptBind_ok, exceptPure_eq]

theorem dualRecord {a0 b0 g0 h0 w0 r0 f0 a1 b1 g1 h1 w1 r1 f1 : List Char} :
    recordLineB
      (String.mk (dualLine a0 b0 g0 h0 w0 r0 f0 a1 b1 g1 h1 w1 r1 f1)) = true := rfl

/-- C5 (amended): instance anchoring.  Each toolhead family's match is
anchored at an occurrence of its own section header
`toolhead<n>: mcu_awake=`, so its captures are never taken from before
that header; but the non-greedy gaps may extend past the next section
header, so when an instance's own section omits trailing fields a value of
the other instance can be captured (the counterexample).  On every record
line of the dual-section form where both sections carry their complete
field sets — the `dualLine` template, with arbitrary digit runs in every
field — each family extracts exactly its own instance's values. -/
theorem c5_instance_anchoring_amended :
    (∀ (n : ℕ) (s : List Char) (caps : List (List Char)),
      reSearch (toolheadToks n) s = some caps →
      ∃ p suf, s = p ++ ("toolhead" ++ toString n ++ ": mcu_awake=").data ++ suf ∧
        matchToks ((toolheadToks n).drop 1) suf = some caps) ∧
    (∀ a0 b0 g0 h0 w0 r0 f0 a1 b1 g1 h1 w1 r1 f1 : List Char,
      DigitRun a0 → DigitRun b0 → DigitRun g0 → DigitRun h0 →
      DigitRun w0 → DigitRun r0 → DigitRun f0 →
      DigitRun a1 → DigitRun b1 → DigitRun g1 → DigitRun h1 →
      DigitRun w1 → DigitRun r1 → DigitRun f1 →
      tableSeries (parse_klippy_log
          [String.mk (dualLine a0 b0 g0 h0 w0 r0 f0 a1 b1 g1 h1 w1 r1 f1)])
          "toolhead0_load" = [floatVal g0 h0 * 100000] ∧
      tableSeries (parse_klippy_log
          [String.mk (dualLine a0 b0 g0 h0 w0 r0 f0 a1 b1 g1 h1 w1 r1 f1)])
          "toolhead0_bandwidth" = [((digitsToNat w0 : ℚ) + (digitsToNat r0 : ℚ)) / 1024] ∧
      tableSeries (parse_klippy_log
          [String.mk (dualLine a0 b0 g0 h0 w0 r0 f0 a1 b1 g1 h1 w1 r1 f1)])
          "toolhead0_awake" = [floatVal a0 b0 * 100] ∧
      tableSeries (parse_klippy_log
          [String.mk (dualLine a0 b0 g0 h0 w0 r0 f0 a1 b1 g1 h1 w1 r1 f1)])
          "toolhead0_bytes_write" = [(digitsToNat w0 : ℚ)] ∧
      tableSeries (parse_klippy_log
          [String.mk (dualLine a0 b0 g0 h0 w0 r0 f0 a1 b1 g1 h1 w1 r1 f1)])
          "toolhead0_bytes_read" = [(digitsToNat r0 : ℚ)] ∧
      tableSeries (parse_klippy_log
          [String.mk (dualLine a0 b0 g0 h0 w0 r0 f0 a1 b1 g1 h1 w1 r1 f1)])
          "toolhead0_freq" = [(digitsToNat f0 : ℚ) / 1000000] ∧
      tableSeries (parse_klippy_log
          [String.mk (dualLine a0 b0 g0 h0 w0 r0 f0 a1 b1 g1 h1 w1 r1 f1)])
          "toolhead1_load" = [floatVal g1 h1 * 100000] ∧
      tableSeries (parse_klippy_log
          [String.mk (dualLine a0 b0 g0 h0 w0 r0 f0 a1 b1 g1 h1 w1 r1 f1)])
          "toolhead1_bandwidth" = [((digitsToNat w1 : ℚ) + (digitsToNat r1 : ℚ)) / 1024] ∧
      tableSeries (parse_klippy_log
          [String.mk (dualLine a0 b0 g0 h0 w0 r0 f0 a1 b1 g1 h1 w1 r1 f1)])
          "toolhead1_awake" = [floatVal a1 b1 * 100] ∧
      tableSeries (parse_klippy_log
          [String.mk (dualLine a0 b0 g0 h0 w0 r0 f0 a1 b1 g1 h1 w1 r1 f1)])
          "toolhead1_bytes_write" = [(digitsToNat w1 : ℚ)] ∧
      tableSeries (parse_klippy_log
          [String.mk (dualLine a0 b0 g0 h0 w0 r0 f0 a1 b1 g1 h1 w1 r1 f1)])
          "toolhead1_bytes_read" = [(digitsToNat r1 : ℚ)] ∧
      tableSeries (parse_klippy_log
          [String.mk (dualLine a0 b0 g0 h0 w0 r0 f0 a1 b1 g1 h1 w1 r1 f1)])
          "toolhead1_freq" = [(digitsToNat f1 : ℚ) / 1000000]) := by
  refine ⟨?_, ?_⟩
  · intro n s caps h
    obtain ⟨p, suf0, heq, hm⟩ := reSearch_split h
    rw [show toolheadToks n =
      Tok.lit ("toolhead" ++ toString n ++ ": mcu_awake=").data ::
        (toolheadToks n).drop 1 from rfl] at hm
    rw [matchToks] at hm
    cases hsp : stripPre ("toolhead" ++ toString n ++ ": mcu_awake=").data suf0 with
    | none => rw [hsp] at hm; simp at hm
    | some r =>
      rw [hsp] at hm
      have hsuf : suf0 = ("toolhead" ++ toString n ++ ": mcu_awake=").data ++ r :=
        (stripPre_eq_some _ _ _).mp hsp
      exact ⟨p, r, by rw [heq, hsuf, List.append_assoc], hm⟩
  · intro a0 b0 g0 h0 w0 r0 f0 a1 b1 g1 h1 w1 r1 f1
      ha0 hb0 hg0 hh0 hw0 hr0 hf0 ha1 hb1 hg1 hh1 hw1 hr1 hf1
    have hfil : List.filter recordLineB
        [String.mk (dualLine a0 b0 g0 h0 w0 r0 f0 a1 b1 g1 h1 w1 r1 f1)] =
        [String.mk (dualLine a0 b0 g0 h0 w0 r0 f0 a1 b1 g1 h1 w1 r1 f1)] := by
      simp [List.filter, dualRecord]
    have hs0 : reSearch famT0.toks
        (String.mk (dualLine a0 b0 g0 h0 w0 r0 f0 a1 b1 g1 h1 w1 r1 f1)).data =
        some [a0 ++ '.' :: b0, g0 ++ '.' :: h0, w0, r0, f0] :=
      dualSearch0 ha0 hb0 hg0 hh0 hw0 hr0 hf0
    have hs1 : reSearch famT1.toks
        (String.mk (dualLine a0 b0 g0 h0 w0 r0 f0 a1 b1 g1 h1 w1 r1 f1)).data =
        some [a1 ++ '.' :: b1, g1 ++ '.' :: h1, w1, r1, f1] :=
      dualSearch1 ha0 hb0 hg0 hh0 hw0 hr0 hf0 ha1 hb1 hg1 hh1 hw1 hr1 hf1
    have hv0 : famT0.vals [a0 ++ '.' :: b0, g0 ++ '.' :: h0, w0, r0, f0] =
        Except.ok [floatVal g0 h0 * 100000,
          ((digitsToNat w0 : ℚ) + (digitsToNat r0 : ℚ)) / 1024,
          floatVal a0 b0 * 100, (digitsToNat w0 : ℚ), (digitsToNat r0 : ℚ),
          (digitsToNat f0 : ℚ) / 1000000] :=
      toolheadVals ha0 hb0 hg0 hh0 hw0 hr0 hf0 0
    have hv1 : famT1.vals [a1 ++ '.' :: b1, g1 ++ '.' :: h1, w1, r1, f1] =
        Except.ok [floatVal g1 h1 * 100000,
          ((digitsToNat w1 : ℚ) + (digitsToNat r1 : ℚ)) / 1024,
          floatVal a1 b1 * 100, (digitsToNat w1 : ℚ), (digitsToNat r1 : ℚ),
          (digitsToNat f1 : ℚ) / 1000000] :=
      toolheadVals ha1 hb1 hg1 hh1 hw1 hr1 hf1 1
    refine ⟨?_, ?_, ?_, ?_, ?_, ?_, ?_, ?_, ?_, ?_, ?_, ?_⟩
    · rw [series_famT0 "toolhead0_load" (by decide) _, hfil]
      simp only [List.map_cons, List.map_nil, famValue, hs0, hv0]
      rfl
    · rw [series_famT0 "toolhead0_bandwidth" (by decide) _, hfil]
      simp only [List.map_cons, List.map_nil, famValue, hs0, hv0]
      rfl
    · rw [series_famT0 "toolhead0_awake" (by decide) _, hfil]
      simp only [List.map_cons, List.map_nil, famValue, hs0, hv0]
      rfl
    · rw [series_famT0 "toolhead0_bytes_write" (by decide) _, hfil]
      simp only [List.map_cons, List.map_nil, famValue, hs0, hv0]
      rfl
    · rw [series_famT0 "toolhead0_bytes_read" (by decide) _, hfil]
      simp only [List.map_cons, List.map_nil, famValue, hs0, hv0]
      rfl
    · rw [series_famT0 "toolhead0_freq" (by decide) _, hfil]
      simp only [List.map_cons, List.map_nil, famValue, hs0, hv0]
      rfl
    · rw [series_famT1 "toolhead1_load" (by decide) _, hfil]
      simp only [List.map_cons, List.map_nil, famValue, hs1, hv1]
      rfl
    · rw [series_famT1 "toolhead1_bandwidth" (by decide) _, hfil]
      simp only [List.map_cons, List.map_nil, famValue, hs1, hv1]
      rfl
    · rw [series_famT1 "toolhead1_awake" (by decide) _, hfil]
      simp only [List.map_cons, List.map_nil, famValue, hs1, hv1]
      rfl
    · rw [series_famT1 "toolhead1_bytes_write" (by decide) _, hfil]
      simp only [List.map_cons, List.map_nil, famValue, hs1, hv1]
      rfl
    · rw [series_famT1 "toolhead1_bytes_read" (by decide) _, hfil]
      simp only [List.map_cons, List.map_nil, famValue, hs1, hv1]
      rfl
    · rw [series_famT1 "toolhead1_freq" (by decide) _, hfil]
      simp only [List.map_cons, List.map_nil, famValue, hs1, hv1]
      rfl

/-- Witness for the amended C5: the anchoring conjunct applied to the
concrete dual-section line, and the ownership conjunct instantiated at that
line's concrete digit runs (`toolhead0_bytes_write` receives its own
section's byte count 11, not the other instance's 21). -/
theorem c5_instance_anchoring_amended_witness :
    DigitRun ['1', '1'] ∧ digitsToNat ['1', '1'] = 11 ∧
    (∃ p suf, c5DualLine.data =
        p ++ ("toolhead" ++ toString 0 ++ ": mcu_awake=").data ++ suf ∧
      matchToks ((toolheadToks 0).drop 1) suf =
        some [['0', '.', '0', '1'], ['0', '.', '0', '0', '0', '1'], ['1', '1'],
          ['1', '2'], ['6', '4', '0', '0', '0', '0', '0', '0']]) ∧
    tableSeries (parse_klippy_log
        [String.mk (dualLine ['0'] ['0', '1'] ['0'] ['0', '0', '0', '1'] ['1', '1']
          ['1', '2'] ['6', '4', '0', '0', '0', '0', '0', '0'] ['0'] ['0', '3'] ['0']
          ['0', '0', '0', '3'] ['2', '1'] ['2', '2']
          ['7', '2', '0', '0', '0', '0', '0', '0'])])
        "toolhead0_bytes_write" = [(digitsToNat ['1', '1'] : ℚ)] :=
  ⟨⟨by decide, by decide⟩, by decide,
   c5_instance_anchoring_amended.1 0 c5DualLine.data
     [['0', '.', '0', '1'], ['0', '.', '0', '0', '0', '1'], ['1', '1'], ['1', '2'],
       ['6', '4', '0', '0', '0', '0', '0', '0']] rfl,
   (c5_instance_anchoring_amended.2 ['0'] ['0', '1'] ['0'] ['0', '0', '0', '1'] ['1', '1']
     ['1', '2'] ['6', '4', '0', '0', '0', '0', '0', '0'] ['0'] ['0', '3'] ['0']
     ['0', '0', '0', '3'] ['2', '1'] ['2', '2'] ['7', '2', '0', '0', '0', '0', '0', '0']
     (by exact ⟨by decide, by decide⟩) (by exact ⟨by decide, by decide⟩) (by exact ⟨by decide, by decide⟩) (by exact ⟨by decide, by decide⟩) (by exact ⟨by decide, by decide⟩) (by exact ⟨by decide, by decide⟩) (by exact ⟨by decide, by decide⟩)
     (by exact ⟨by decide, by decide⟩) (by exact ⟨by decide, by decide⟩) (by exact ⟨by decide, by decide⟩) (by exact ⟨by decide, by decide⟩) (by exact ⟨by decide, by decide⟩) (by exact ⟨by decide, by decide⟩)
     (by exact ⟨by decide, by decide⟩)).2.2.2.1⟩
